import Mathlib

/-!
# Watch-enabled replicated KV range (`data-server/src/range/watch_funcs.cpp`)

A shallow embedding of the request, apply and notify paths of `Range`:
`WatchGet`, `PureGet`, `WatchPut`, `WatchDel`, `WatchPutSubmit`,
`WatchDeleteSubmit`, `ApplyWatchPut`, `ApplyWatchDel` and `WatchNotify`.

Every function takes the range state explicitly and returns the new state
together with the list of calls it made to its collaborators (storage engine,
replication layer, watcher registry, client sessions), in program order.
Collaborators that live outside this file of the repository (the codec, the
storage engine, the replication layer, the sockets) are fields of `Env`, so
every theorem holds for all of their behaviours.  Logging, timing and metrics
calls have no influence on the modelled state and are left out.
-/

namespace sharkstore

/-! ## Data model -/

/-- Codes of `Status` named in `watch_funcs.cpp` (`kOk`, `kInvalidArgument`,
`kNoLeftSpace`, `kUnknown`); the enum itself is declared outside this file, so
`kNotFound` and `other n` stand for the remaining codes a storage call may
return. -/
inductive Code where
  | kOk
  | kNotFound
  | kInvalidArgument
  | kNoLeftSpace
  | kUnknown
  | other (n : Nat)
  deriving DecidableEq, Repr

/-- A `Status` value: a code and a message. -/
structure Status where
  code : Code
  msg : String
  deriving DecidableEq, Repr

/-- The default constructed `Status` (`Status ret;`), which is ok. -/
def Status.OK : Status := { code := Code.kOk, msg := "" }

/-- The method `Status::ok()`. -/
def Status.ok (s : Status) : Bool := decide (s.code = Code.kOk)

/-- Payload of `errorpb::Error` as far as this file produces it: the errors
built by `VerifyLeader`, `KeyNotInRange` and `RaftFailError`, and `codec` for an
error set by `WatchCode::EncodeKv` or `WatchCode::DecodeKv`. -/
inductive Error where
  | not_leader
  | key_not_in_range (key : String)
  | raft_fail
  | codec (message : String)
  deriving DecidableEq, Repr

/-- The accessor `err->message()`. -/
def Error.message : Error → String
  | Error.not_leader => "not leader"
  | Error.key_not_in_range _ => "key not in range"
  | Error.raft_fail => "raft submit fail"
  | Error.codec m => m

/-- The codec function selector. -/
inductive FunctionID where
  | kFuncWatchGet
  | kFuncPureGet
  | kFuncWatchPut
  | kFuncWatchDel
  | kFuncHeartbeat
  deriving DecidableEq, Repr

/-- Type tag of a pushed event. -/
inductive EventType where
  | PUT
  | DELETE
  deriving DecidableEq, Repr

/-- The record `watchpb::WatchKeyValue`: `key` is a repeated field. -/
structure WatchKeyValue where
  key : List String
  value : String
  version : Int
  deriving DecidableEq, Repr

/-- The accessor `kv.key(0)`.  Commands built by `WatchPut` and `WatchDel` hold
exactly one key; on an empty list the accessor is undefined in the source and
reads as the empty string here. -/
def WatchKeyValue.key0 (kv : WatchKeyValue) : String := kv.key.headD ""

/-- One event of a watch response. -/
structure Event where
  type : EventType
  kv : WatchKeyValue
  deriving DecidableEq, Repr

/-- The response `watchpb::DsWatchResponse`: the error placed in the header by
`SetResponseHeader`, and the `resp` part (watch id, code, events). -/
structure DsWatchResponse where
  header_error : Option Error
  watchId : Int
  code : Code
  events : List Event
  deriving DecidableEq, Repr

/-- The range descriptor `meta_`. -/
structure RangeMeta where
  id : Nat
  start_key : String
  end_key : String
  range_epoch : Nat
  deriving DecidableEq, Repr

/-- The message `common::ProtoMessage`, reduced to the session it belongs to. -/
structure ProtoMessage where
  session_id : Int
  deriving DecidableEq, Repr

/-- Request header: the range epoch the client believes in. -/
structure RequestHeader where
  range_epoch : Nat
  deriving DecidableEq, Repr

/-- Request of `WatchGet`. -/
structure DsWatchRequest where
  header : RequestHeader
  kv : WatchKeyValue
  startVersion : Int
  deriving DecidableEq, Repr

/-- Request of `PureGet`; `pfx` is the source's `prefix` flag. -/
structure DsKvWatchGetMultiRequest where
  header : RequestHeader
  kv : WatchKeyValue
  pfx : Bool
  deriving DecidableEq, Repr

/-- Request of `WatchPut`. -/
structure DsKvWatchPutRequest where
  header : RequestHeader
  kv : WatchKeyValue
  deriving DecidableEq, Repr

/-- Request of `WatchDel`. -/
structure DsKvWatchDeleteRequest where
  header : RequestHeader
  kv : WatchKeyValue
  deriving DecidableEq, Repr

/-- Command type tag of `raft_cmdpb::Command`. -/
inductive CmdType where
  | KvWatchPut
  | KvWatchDel
  deriving DecidableEq, Repr

/-- The replicated command: originator node (`cmd_id().node_id()`), type tag and
the encoded key/value payload. -/
structure Command where
  node_id : Nat
  cmd_type : CmdType
  kv : WatchKeyValue
  deriving DecidableEq, Repr

/-- A call made to a collaborator, recorded in program order. -/
inductive Effect where
  | StoreGet (key : String)
  | StoreNewIterator (start limit : String)
  | StorePut (key value : String)
  | StoreDelete (key : String)
  | SubmitCmd (cmd : Command)
  | AddKeyWatcher (key : String) (session_id : Int)
  | DelKeyWatcher (session_id : Int) (key : String)
  | Send (session_id : Int) (resp : DsWatchResponse)
  | SendError (session_id : Int) (code : Code) (err : Option Error)
  | SendResponse (cmd : Command) (code : Code) (err : Option Error)
  | SocketSend (session_id : Int) (resp : DsWatchResponse)
  | CheckSplit (kv : WatchKeyValue)
  deriving DecidableEq, Repr

/-- Output of `WatchCode::EncodeKv`: return value, encoded key and value, and
the value of the `err` argument after the call. -/
structure EncodeResult where
  ret : Int
  db_key : String
  db_value : String
  err : Option Error
  deriving DecidableEq, Repr

/-- Output of `WatchCode::DecodeKv`: returned code, the decoded record left in
the `kv` argument, and the value of the `err` argument after the call. -/
structure DecodeResult where
  ret : Code
  kv : WatchKeyValue
  err : Option Error
  deriving DecidableEq, Repr

/-- The collaborators of a range, declared outside `watch_funcs.cpp`.  `σ` is
the state of the storage engine.  Each field is the named call as a function of
its arguments; `EncodeKv` is taken to read its `kv` argument only. -/
structure Env (σ : Type) where
  CheckWriteable : Bool
  EncodeKv : FunctionID → RangeMeta → WatchKeyValue → EncodeResult
  DecodeKv : FunctionID → RangeMeta → WatchKeyValue → String → String → DecodeResult
  storeGet : σ → String → Status × String
  storeIter : σ → String → String → List String
  storePut : σ → String → String → Status × σ
  storeDelete : σ → String → Status × σ
  SubmitCmd : Command → Status
  socketSend : Int → DsWatchResponse → Int

/-- The state of `Range` read or written by `watch_funcs.cpp`. -/
structure Range (σ : Type) where
  meta_ : RangeMeta
  is_leader_ : Bool
  node_id_ : Nat
  version_seq_ : Int
  store_ : σ
  key_watchers_ : List (String × ProtoMessage)

/-! ## Helpers of `Range` declared outside `watch_funcs.cpp` -/

/-- Modelled from the spec: `VerifyLeader` (defined outside this file) checks
that the replica is leader and otherwise fails with `NotLeader` (section 4.1,
check 1).  Returns the error it stores in `err`, `none` when it returns true. -/
def VerifyLeader {σ : Type} (r : Range σ) : Option Error :=
  if r.is_leader_ then none else some Error.not_leader

/-- Modelled from the spec: `KeyInRange(key)` (defined outside this file) tests
that the key lies in the half-open interval from `start_key` to `end_key`, with
the byte-wise lexicographic order of `std::string`. -/
def KeyInRange {σ : Type} (r : Range σ) (key : String) : Bool :=
  !(decide (key.data < r.meta_.start_key.data)) && decide (key.data < r.meta_.end_key.data)

/-- Modelled from the spec: the error constructor `KeyNotInRange(key)`. -/
def KeyNotInRange (key : String) : Error := Error.key_not_in_range key

/-- Modelled from the spec: the overload `KeyInRange(key, err)` used at apply time
stores a `KeyNotInRange` error in `err` when the key is outside the range
(section 4.4).  Returns that error, `none` when the key is in range. -/
def KeyInRangeErr {σ : Type} (r : Range σ) (key : String) : Option Error :=
  if KeyInRange r key then none else some (KeyNotInRange key)

/-- Modelled from the spec: `EpochIsEqual(epoch)` compares the epoch supplied by
the caller with the current epoch of the range. -/
def EpochIsEqual {σ : Type} (r : Range σ) (epoch : Nat) : Bool :=
  decide (r.meta_.range_epoch = epoch)

/-- Modelled from the spec: the error constructor `RaftFailError()`. -/
def RaftFailError : Error := Error.raft_fail

/-- Modelled from the spec: `AddKeyWatcher(key, msg)` inserts the session into the
set of watchers of the key, idempotent per (key, session) pair (section 4.5). -/
def AddKeyWatcher (w : List (String × ProtoMessage)) (key : String) (msg : ProtoMessage) :
    List (String × ProtoMessage) :=
  if w.any (fun e => decide (e.1 = key) && decide (e.2.session_id = msg.session_id)) then w
  else w ++ [(key, msg)]

/-- Modelled from the spec: `GetKeyWatchers(vec, key)` returns a snapshot of the
watchers of the key and removes nothing (section 4.5). -/
def GetKeyWatchers (w : List (String × ProtoMessage)) (key : String) : List ProtoMessage :=
  (w.filter (fun e => decide (e.1 = key))).map (fun e => e.2)

/-- Modelled from the spec: `DelKeyWatcher(session_id, key)` removes the entry of
that session under that key; the boolean is `WATCH_OK`, false when the entry is
absent (section 4.5). -/
def DelKeyWatcher (w : List (String × ProtoMessage)) (session_id : Int) (key : String) :
    Bool × List (String × ProtoMessage) :=
  if w.any (fun e => decide (e.1 = key) && decide (e.2.session_id = session_id)) then
    (true, w.filter (fun e => !(decide (e.1 = key) && decide (e.2.session_id = session_id))))
  else (false, w)

/-- The value of a 64-bit signed counter after an increment that wraps. -/
def wrapInt64 (x : Int) : Int := (x + 2 ^ 63) % 2 ^ 64 - 2 ^ 63

/-- The session `s` is registered in `w` as a watcher of `key`. -/
def isWatcher (w : List (String × ProtoMessage)) (key : String) (s : Int) : Bool :=
  (GetKeyWatchers w key).any (fun m => decide (m.session_id = s))

/-! ## Read paths -/

/-- The response object `ds_resp` as created by `new watchpb::DsWatchResponse`. -/
def emptyResponse : DsWatchResponse :=
  { header_error := none, watchId := 0, code := Code.kOk, events := [] }

/-- What the `do ... while (false)` block of a read entry point leaves behind:
`err`, `dbKey`, the filled `ds_resp` and the calls made. -/
structure ReadBlock where
  err : Option Error
  dbKey : String
  resp : DsWatchResponse
  effects : List Effect

/-- The `do ... while (false)` block of `WatchGet` (lines 39-84).  A codec call
may store an error in `err`; it never resets one that is already there. -/
def WatchGetBlock {σ : Type} (env : Env σ) (r : Range σ) (msg : ProtoMessage)
    (req : DsWatchRequest) : ReadBlock :=
  match VerifyLeader r with
  | some e => { err := some e, dbKey := "", resp := emptyResponse, effects := [] }
  | none =>
    let enc := env.EncodeKv FunctionID.kFuncWatchGet r.meta_ req.kv
    if enc.ret ≠ 0 then
      { err := enc.err, dbKey := enc.db_key, resp := emptyResponse, effects := [] }
    else
      let dbKey := enc.db_key
      let in_range := KeyInRange r dbKey
      let is_equal := EpochIsEqual r req.header.range_epoch
      if !in_range && is_equal then
        { err := some (KeyNotInRange dbKey), dbKey := dbKey, resp := emptyResponse, effects := [] }
      else
        let got := env.storeGet r.store_ dbKey
        let dec := env.DecodeKv FunctionID.kFuncWatchGet r.meta_ req.kv dbKey got.2
        { err := (match dec.err with
                  | some e => some e
                  | none => enc.err),
          dbKey := dbKey,
          resp := { header_error := none, watchId := msg.session_id, code := got.1.code,
                    events := [{ type := EventType.PUT, kv := dec.kv }] },
          effects := [Effect.StoreGet dbKey] }

/-- The entry point `Range::WatchGet` (lines 25-107).  The local `version` is
initialised to 0 and never assigned afterwards, so the registration test
`start_version >= version` compares with 0. -/
def WatchGet {σ : Type} (env : Env σ) (r : Range σ) (msg : ProtoMessage)
    (req : DsWatchRequest) : Range σ × List Effect :=
  let version : Int := 0
  let b := WatchGetBlock env r msg req
  let reply := Effect.Send msg.session_id { b.resp with header_error := b.err }
  match b.err with
  | some _ => (r, b.effects ++ [reply])
  | none =>
    if req.startVersion ≥ version then
      ({ r with key_watchers_ := AddKeyWatcher r.key_watchers_ b.dbKey msg },
       b.effects ++ [Effect.AddKeyWatcher b.dbKey msg.session_id, reply])
    else (r, b.effects ++ [reply])

/-- The `do ... while (false)` block of `PureGet` (lines 125-191).  The events
of `PureGet` keep the default event type, which is `PUT`. -/
def PureGetBlock {σ : Type} (env : Env σ) (r : Range σ) (req : DsKvWatchGetMultiRequest) :
    ReadBlock :=
  match VerifyLeader r with
  | some e => { err := some e, dbKey := "", resp := emptyResponse, effects := [] }
  | none =>
    if req.kv.key.isEmpty then
      { err := some (KeyNotInRange ""), dbKey := "", resp := emptyResponse, effects := [] }
    else
      let enc := env.EncodeKv FunctionID.kFuncWatchGet r.meta_ req.kv
      if enc.ret ≠ 0 then
        { err := enc.err, dbKey := enc.db_key, resp := emptyResponse, effects := [] }
      else
        let dbKey := enc.db_key
        let in_range := KeyInRange r dbKey
        let is_equal := EpochIsEqual r req.header.range_epoch
        if !in_range && is_equal then
          { err := some (KeyNotInRange dbKey), dbKey := dbKey, resp := emptyResponse,
            effects := [] }
        else if req.pfx then
          let values := env.storeIter r.store_ dbKey dbKey
          let events := values.map (fun v =>
            ({ type := EventType.PUT,
               kv := (env.DecodeKv FunctionID.kFuncPureGet r.meta_
                        { key := [], value := "", version := 0 } dbKey v).kv } : Event))
          { err := enc.err, dbKey := dbKey,
            resp := { header_error := none, watchId := 0, code := Code.kOk, events := events },
            effects := [Effect.StoreNewIterator dbKey dbKey] }
        else
          let got := env.storeGet r.store_ dbKey
          let dec := env.DecodeKv FunctionID.kFuncPureGet r.meta_
                       { key := [], value := "", version := 0 } dbKey got.2
          { err := enc.err, dbKey := dbKey,
            resp := { header_error := none, watchId := 0, code := got.1.code,
                      events := [{ type := EventType.PUT, kv := dec.kv }] },
            effects := [Effect.StoreGet dbKey] }

/-- The entry point `Range::PureGet` (lines 109-200). -/
def PureGet {σ : Type} (env : Env σ) (r : Range σ) (msg : ProtoMessage)
    (req : DsKvWatchGetMultiRequest) : Range σ × List Effect :=
  let b := PureGetBlock env r req
  (r, b.effects ++ [Effect.Send msg.session_id { b.resp with header_error := b.err }])

/-! ## Write paths -/

/-- The helper `Range::WatchPutSubmit` (lines 338-352).  `req.req().key()` is the
key the request holds at this point, which `WatchPut` has replaced by the
encoded key.  Returns the boolean result and the calls made. -/
def WatchPutSubmit {σ : Type} (env : Env σ) (r : Range σ) (req : DsKvWatchPutRequest) :
    Bool × List Effect :=
  let key := req.kv.key0
  if r.is_leader_ && KeyInRange r key then
    let cmd : Command := { node_id := r.node_id_, cmd_type := CmdType.KvWatchPut, kv := req.kv }
    let ret := env.SubmitCmd cmd
    (ret.ok, [Effect.SubmitCmd cmd])
  else (false, [])

/-- The helper `Range::WatchDeleteSubmit` (lines 354-368). -/
def WatchDeleteSubmit {σ : Type} (env : Env σ) (r : Range σ) (req : DsKvWatchDeleteRequest) :
    Bool × List Effect :=
  let key := req.kv.key0
  if r.is_leader_ && KeyInRange r key then
    let cmd : Command := { node_id := r.node_id_, cmd_type := CmdType.KvWatchDel, kv := req.kv }
    let ret := env.SubmitCmd cmd
    (ret.ok, [Effect.SubmitCmd cmd])
  else (false, [])

/-- The tail of the write entry points (lines 264-270 and 328-334): when `err`
is set, `SendError` replies with a fresh response (code 0) and the error. -/
def finishWrite {σ : Type} (r : Range σ) (msg : ProtoMessage) (effects : List Effect)
    (err : Option Error) : Range σ × List Effect :=
  match err with
  | some e => (r, effects ++ [Effect.SendError msg.session_id Code.kOk (some e)])
  | none => (r, effects)

/-- The entry point `Range::WatchPut` (lines 202-272).  `version_seq_.fetch_add(1)`
returns the old counter and stores the incremented one; `kv->empty()` is read
as the test that the request holds no key. -/
def WatchPut {σ : Type} (env : Env σ) (r : Range σ) (msg : ProtoMessage)
    (req : DsKvWatchPutRequest) : Range σ × List Effect :=
  if !env.CheckWriteable then
    (r, [Effect.SendError msg.session_id Code.kNoLeftSpace none])
  else
    match VerifyLeader r with
    | some e => finishWrite r msg [] (some e)
    | none =>
      if req.kv.key.isEmpty then finishWrite r msg [] (some (KeyNotInRange "-"))
      else
        let version := r.version_seq_
        let r1 := { r with version_seq_ := wrapInt64 (r.version_seq_ + 1) }
        let kv1 := { req.kv with version := version }
        let enc := env.EncodeKv FunctionID.kFuncWatchPut r.meta_ kv1
        if enc.ret ≠ 0 then finishWrite r1 msg [] enc.err
        else
          let dbKey := enc.db_key
          let kv2 : WatchKeyValue := { key := [dbKey], value := enc.db_value, version := version }
          let in_range := KeyInRange r1 dbKey
          let is_equal := EpochIsEqual r1 req.header.range_epoch
          if !in_range && is_equal then finishWrite r1 msg [] (some (KeyNotInRange dbKey))
          else
            let sub := WatchPutSubmit env r1 { req with kv := kv2 }
            finishWrite r1 msg sub.2 (if sub.1 then enc.err else some RaftFailError)

/-- The entry point `Range::WatchDel` (lines 274-336). -/
def WatchDel {σ : Type} (env : Env σ) (r : Range σ) (msg : ProtoMessage)
    (req : DsKvWatchDeleteRequest) : Range σ × List Effect :=
  if !env.CheckWriteable then
    (r, [Effect.SendError msg.session_id Code.kNoLeftSpace none])
  else
    match VerifyLeader r with
    | some e => finishWrite r msg [] (some e)
    | none =>
      if req.kv.key.length < 1 then finishWrite r msg [] (some (KeyNotInRange "-"))
      else
        let enc := env.EncodeKv FunctionID.kFuncWatchDel r.meta_ req.kv
        if enc.ret ≠ 0 then finishWrite r msg [] enc.err
        else
          let dbKey := enc.db_key
          let in_range := KeyInRange r dbKey
          let is_equal := EpochIsEqual r req.header.range_epoch
          if !in_range && is_equal then finishWrite r msg [] (some (KeyNotInRange dbKey))
          else
            let kv2 : WatchKeyValue := { req.kv with key := [dbKey], value := enc.db_value }
            let sub := WatchDeleteSubmit env r { req with kv := kv2 }
            finishWrite r msg sub.2 (if sub.1 then enc.err else some RaftFailError)

/-! ## Notification and apply -/

/-- The loop of `WatchNotify` over the snapshot `vecProtoMsg` (lines 507-522):
push the response to each watcher and, when the push returns 0, call
`DelKeyWatcher(pMsg->session_id, key)`. -/
def notifyLoop {σ : Type} (env : Env σ) (ds_resp : DsWatchResponse) (key : String) :
    List ProtoMessage → List (String × ProtoMessage) →
      List (String × ProtoMessage) × List Effect
  | [], w => (w, [])
  | pMsg :: rest, w =>
    if env.socketSend pMsg.session_id ds_resp ≠ 0 then
      let out := notifyLoop env ds_resp key rest w
      (out.1, Effect.SocketSend pMsg.session_id ds_resp :: out.2)
    else
      let del := DelKeyWatcher w pMsg.session_id key
      let out := notifyLoop env ds_resp key rest del.2
      (out.1, Effect.SocketSend pMsg.session_id ds_resp ::
                Effect.DelKeyWatcher pMsg.session_id key :: out.2)

/-- The local `dbKey` of `WatchNotify` (line 474): the first key of the record,
or `"NOFOUND"` when it holds none. -/
def notifyKey (kv : WatchKeyValue) : String :=
  if kv.key.length > 0 then kv.key0 else "NOFOUND"

/-- The codec selector `WatchNotify` derives from the event type (lines 481-488);
the final `else` of the source is for event types other than the two modelled. -/
def eventFuncId : EventType → FunctionID
  | EventType.PUT => FunctionID.kFuncWatchPut
  | EventType.DELETE => FunctionID.kFuncWatchDel

/-- The response `WatchNotify` builds for its watchers (lines 497-504).  The
watch id is left at its default: the source reads it from a `msg` that is not
in scope. -/
def notifyResponse (evtType : EventType) (kv : WatchKeyValue) : DsWatchResponse :=
  { header_error := none, watchId := 0, code := Code.kOk,
    events := [{ type := evtType, kv := kv }] }

/-- The function `Range::WatchNotify` (lines 467-527).  The local `key` is
initialised to the empty string and never assigned, and it is `key`, not
`dbKey`, that is passed to `DelKeyWatcher`.  The third component is the returned
`Status`; it is `none` when the function does not return: when `DecodeKv` fails
and leaves `err` null, line 491 reads `err->message()` through the null pointer
and the process stops there, with the state and the calls made so far. -/
def WatchNotify {σ : Type} (env : Env σ) (r : Range σ) (evtType : EventType)
    (kv : WatchKeyValue) : Range σ × List Effect × Option Status :=
  let tmpKv := kv
  let dbKey := notifyKey tmpKv
  let dbValue := tmpKv.value
  let key : String := ""
  let dec := env.DecodeKv (eventFuncId evtType) r.meta_ tmpKv dbKey dbValue
  if dec.ret ≠ Code.kOk then
    match dec.err with
    | some e => (r, [], some { code := Code.kUnknown, msg := e.message })
    | none => (r, [], none)
  else
    let vecProtoMsg := GetKeyWatchers r.key_watchers_ dbKey
    if vecProtoMsg.length > 0 then
      let ds_resp := notifyResponse evtType dec.kv
      let out := notifyLoop env ds_resp key vecProtoMsg r.key_watchers_
      ({ r with key_watchers_ := out.1 }, out.2, some Status.OK)
    else (r, [], some Status.OK)

/-- The function `Range::ApplyWatchPut` (lines 370-420).  The third component is
the returned `Status`, `none` when `WatchNotify` does not return. -/
def ApplyWatchPut {σ : Type} (env : Env σ) (r : Range σ) (cmd : Command) :
    Range σ × List Effect × Option Status :=
  let req := cmd.kv
  let dbKey := req.key0
  let dbValue := req.value
  let blk : σ × Status × Option Error × List Effect :=
    match KeyInRangeErr r dbKey with
    | some e =>
      (r.store_, { code := Code.kInvalidArgument, msg := "key not int range" }, some e, [])
    | none =>
      let put := env.storePut r.store_ dbKey dbValue
      if !put.1.ok then (put.2, put.1, none, [Effect.StorePut dbKey dbValue])
      else if cmd.node_id = r.node_id_ then
        (put.2, put.1, none, [Effect.StorePut dbKey dbValue, Effect.CheckSplit req])
      else (put.2, put.1, none, [Effect.StorePut dbKey dbValue])
  let r1 := { r with store_ := blk.1 }
  let reply :=
    if cmd.node_id = r.node_id_ then [Effect.SendResponse cmd blk.2.1.code blk.2.2.1] else []
  let out := WatchNotify env r1 EventType.PUT req
  (out.1, blk.2.2.2 ++ reply ++ out.2.1, out.2.2)

/-- The function `Range::ApplyWatchDel` (lines 422-465).  The third component is
the returned `Status`, `none` when `WatchNotify` does not return. -/
def ApplyWatchDel {σ : Type} (env : Env σ) (r : Range σ) (cmd : Command) :
    Range σ × List Effect × Option Status :=
  let req := cmd.kv
  let blk : σ × Status × Option Error × List Effect :=
    match KeyInRangeErr r req.key0 with
    | some e => (r.store_, Status.OK, some e, [])
    | none =>
      let del := env.storeDelete r.store_ req.key0
      (del.2, del.1, none, [Effect.StoreDelete req.key0])
  let r1 := { r with store_ := blk.1 }
  let reply :=
    if cmd.node_id = r.node_id_ then [Effect.SendResponse cmd blk.2.1.code blk.2.2.1] else []
  let out := WatchNotify env r1 EventType.DELETE req
  (out.1, blk.2.2.2 ++ reply ++ out.2.1, out.2.2)

/-! ## Observations on call lists -/

/-- The call is a storage write (`Put` or `Delete`). -/
def Effect.isStoreWrite : Effect → Bool
  | Effect.StorePut _ _ => true
  | Effect.StoreDelete _ => true
  | _ => false

/-- The call is a proposal to the replication layer. -/
def Effect.isSubmit : Effect → Bool
  | Effect.SubmitCmd _ => true
  | _ => false

/-- The call registers a watcher. -/
def Effect.isAddKeyWatcher : Effect → Bool
  | Effect.AddKeyWatcher _ _ => true
  | _ => false

/-- The call is `SendResponse`, the reply of the apply path to the client. -/
def Effect.isSendResponse : Effect → Bool
  | Effect.SendResponse _ _ _ => true
  | _ => false

/-- The call pushes a notification over a watcher's socket. -/
def Effect.isSocketSend : Effect → Bool
  | Effect.SocketSend _ _ => true
  | _ => false

/-- Number of `SendResponse` calls in a call list. -/
def countReplies (es : List Effect) : Nat := es.countP Effect.isSendResponse

/-- A storage engine over an association list: `Get` and `Delete` of an absent
key return `kNotFound`, `Put` replaces the binding. -/
def listStoreGet (s : List (String × String)) (key : String) : Status × String :=
  match s.lookup key with
  | some v => (Status.OK, v)
  | none => ({ code := Code.kNotFound, msg := "not found" }, "")

/-- The `Put` of the association-list engine. -/
def listStorePut (s : List (String × String)) (key value : String) :
    Status × List (String × String) :=
  (Status.OK, (key, value) :: s.filter (fun e => !decide (e.1 = key)))

/-- The `Delete` of the association-list engine. -/
def listStoreDelete (s : List (String × String)) (key : String) :
    Status × List (String × String) :=
  match s.lookup key with
  | some _ => (Status.OK, s.filter (fun e => !decide (e.1 = key)))
  | none => ({ code := Code.kNotFound, msg := "not found" }, s)

/-- A codec that keeps the key as it is and stores the version in front of the
value, as one character. -/
def demoEncodeKv (_f : FunctionID) (_m : RangeMeta) (kv : WatchKeyValue) : EncodeResult :=
  match kv.key with
  | [] => { ret := -1, db_key := "", db_value := "", err := some (Error.codec "no key") }
  | k :: _ =>
    { ret := 0, db_key := k,
      db_value := String.mk (Char.ofNat kv.version.toNat :: kv.value.data), err := none }

/-- The decoder of `demoEncodeKv`: an empty stored value decodes to version 0. -/
def demoDecodeKv (_f : FunctionID) (_m : RangeMeta) (_kv : WatchKeyValue)
    (dbKey dbValue : String) : DecodeResult :=
  match dbValue.data with
  | [] => { ret := Code.kOk, kv := { key := [dbKey], value := "", version := 0 }, err := none }
  | c :: rest =>
    { ret := Code.kOk,
      kv := { key := [dbKey], value := String.mk rest, version := (c.toNat : Int) },
      err := none }

/-- A writable environment: list store, `demoEncodeKv`, a replication layer
that accepts every command and sockets on which every push succeeds. -/
def demoEnv : Env (List (String × String)) :=
  { CheckWriteable := true
    EncodeKv := demoEncodeKv
    DecodeKv := demoDecodeKv
    storeGet := listStoreGet
    storeIter := fun s start _ => (s.filter (fun e => decide (e.1 = start))).map (fun e => e.2)
    storePut := listStorePut
    storeDelete := listStoreDelete
    SubmitCmd := fun _ => Status.OK
    socketSend := fun _ _ => 0 }

/-- The environment `demoEnv` with no free space left (`CheckWriteable` false). -/
def fullDiskEnv : Env (List (String × String)) :=
  { demoEnv with CheckWriteable := false }

/-- The environment `demoEnv` with a decoder that rejects every record. -/
def corruptEnv : Env (List (String × String)) :=
  { demoEnv with
    DecodeKv := fun _ _ kv _ _ =>
      { ret := Code.kUnknown, kv := kv, err := some (Error.codec "corrupt record") } }

/-- The environment `demoEnv` with a decoder that rejects every record and leaves
`err` null. -/
def silentCorruptEnv : Env (List (String × String)) :=
  { demoEnv with
    DecodeKv := fun _ _ kv _ _ => { ret := Code.kUnknown, kv := kv, err := none } }

/-- The range of the spec's scenario: id 1, keys from `a` to `z`, epoch 5,
leader, node 1, `foo` stored at version 3 and session 7 watching `foo`. -/
def demoRange : Range (List (String × String)) :=
  { meta_ := { id := 1, start_key := "a", end_key := "z", range_epoch := 5 }
    is_leader_ := true
    node_id_ := 1
    version_seq_ := 4
    store_ := [("foo", String.mk [Char.ofNat 3, 'b', 'a', 'r'])]
    key_watchers_ := [("foo", { session_id := 7 })] }

/-- The same range on a replica that is not leader (node 2). -/
def demoFollower : Range (List (String × String)) :=
  { demoRange with is_leader_ := false, node_id_ := 2 }

/-! ## Concrete requests and commands -/

/-- A `WatchPut` of `foo` to `baz` carrying the current epoch 5. -/
def demoPutReq : DsKvWatchPutRequest :=
  { header := { range_epoch := 5 }, kv := { key := ["foo"], value := "baz", version := 0 } }

/-- A `WatchDel` of `foo` carrying the current epoch 5. -/
def demoDelReq : DsKvWatchDeleteRequest :=
  { header := { range_epoch := 5 }, kv := { key := ["foo"], value := "", version := 0 } }

/-- A `WatchGet` of `foo` by a client that knows version 5. -/
def demoGetReq : DsWatchRequest :=
  { header := { range_epoch := 5 }, kv := { key := ["foo"], value := "", version := 0 },
    startVersion := 5 }

/-- A `PureGet` of `foo` without prefix iteration. -/
def demoPureReq : DsKvWatchGetMultiRequest :=
  { header := { range_epoch := 5 }, kv := { key := ["foo"], value := "", version := 0 },
    pfx := false }

/-- The Put command `WatchPut` proposes on `demoRange` for `demoPutReq`: node 1,
key `foo`, value `baz` at version 4. -/
def demoPutCmd : Command :=
  { node_id := 1, cmd_type := CmdType.KvWatchPut,
    kv := { key := ["foo"], value := String.mk [Char.ofNat 4, 'b', 'a', 'z'], version := 4 } }

/-- A Put command of node 1 whose key `zoo` lies outside the range from `a` to `z`. -/
def outsidePutCmd : Command :=
  { node_id := 1, cmd_type := CmdType.KvWatchPut,
    kv := { key := ["zoo"], value := String.mk [Char.ofNat 4, 'x'], version := 4 } }

/-- Two replicas of the range: the leader on node 1 and a follower on node 2. -/
def demoReplicas : List (Env (List (String × String)) × Range (List (String × String))) :=
  [(demoEnv, demoRange), (demoEnv, demoFollower)]

/-- A `WatchPut` of `zoo`, outside the range from `a` to `z`, carrying the current
epoch 5. -/
def currentPutReq : DsKvWatchPutRequest :=
  { header := { range_epoch := 5 }, kv := { key := ["zoo"], value := "x", version := 0 } }

/-- The range `demoRange` before any session watches a key. -/
def noWatcherRange : Range (List (String × String)) :=
  { demoRange with key_watchers_ := [] }

/-- The range after session 7 has sent the `WatchGet` of `foo` to `noWatcherRange`. -/
def watchedRange : Range (List (String × String)) :=
  (WatchGet demoEnv noWatcherRange { session_id := 7 } demoGetReq).1

/-- The range `demoRange` after a split that left it the keys from `a` to `c`
(epoch 6): `foo` is now outside, session 7 still watches it. -/
def shrunkRange : Range (List (String × String)) :=
  { demoRange with
    meta_ := { id := 1, start_key := "a", end_key := "c", range_epoch := 6 } }

/-! ## Inputs for C4: key outside the range with a different epoch -/

/-- A `WatchPut` of `zoo`, outside the range from `a` to `z`, carrying the stale
epoch 4. -/
def stalePutReq : DsKvWatchPutRequest :=
  { header := { range_epoch := 4 }, kv := { key := ["zoo"], value := "x", version := 0 } }

/-- A `WatchDel` of `zoo` carrying the stale epoch 4. -/
def staleDelReq : DsKvWatchDeleteRequest :=
  { header := { range_epoch := 4 }, kv := { key := ["zoo"], value := "", version := 0 } }

/-- A `WatchGet` of `zoo` carrying the stale epoch 4. -/
def staleGetReq : DsWatchRequest :=
  { header := { range_epoch := 4 }, kv := { key := ["zoo"], value := "", version := 0 },
    startVersion := 0 }

/-- A `PureGet` of `zoo` carrying the stale epoch 4. -/
def stalePureReq : DsKvWatchGetMultiRequest :=
  { header := { range_epoch := 4 }, kv := { key := ["zoo"], value := "", version := 0 },
    pfx := false }

/-! ## Inputs for C5: Delete of a key that was never written -/

/-- The range `demoRange` with an empty store: `foo` was never written, session 7
watches it. -/
def emptyStoreRange : Range (List (String × String)) :=
  { demoRange with store_ := [] }

/-- The Delete command `WatchDel` proposes on `demoRange` for `demoDelReq`. -/
def demoDelCmd : Command :=
  { node_id := 1, cmd_type := CmdType.KvWatchDel,
    kv := { key := ["foo"], value := String.mk [Char.ofNat 0], version := 0 } }

/-! ## Runs of a range: successive Puts and applies (C6) -/

/-- One step of a run of a range: a `WatchPut` request, or the apply of a Put or
Delete command; each step comes with the collaborators' behaviour at that time.
A run goes from step to step on the state the previous call left; runs in which
an apply does not return are included, which only adds runs to those of the
program. -/
inductive Step (σ : Type) where
  | put (env : Env σ) (msg : ProtoMessage) (req : DsKvWatchPutRequest)
  | applyPut (env : Env σ) (cmd : Command)
  | applyDel (env : Env σ) (cmd : Command)

/-- The versions carried by the commands proposed in a call list. -/
def submittedVersions (es : List Effect) : List Int :=
  es.filterMap (fun e =>
    match e with
    | Effect.SubmitCmd c => some c.kv.version
    | _ => none)

/-- A `WatchPut` is successful when its only call is a proposal that the
replication layer accepts: no error is sent to the client. -/
def putSucceeds {σ : Type} (env : Env σ) (r : Range σ) (msg : ProtoMessage)
    (req : DsKvWatchPutRequest) : Bool :=
  match (WatchPut env r msg req).2 with
  | [Effect.SubmitCmd cmd] => (env.SubmitCmd cmd).ok
  | _ => false

/-- The versions written into the proposed commands during a run, in order. -/
def assignedVersions {σ : Type} : Range σ → List (Step σ) → List Int
  | _, [] => []
  | r, Step.put env msg req :: rest =>
    submittedVersions (WatchPut env r msg req).2 ++
      assignedVersions (WatchPut env r msg req).1 rest
  | r, Step.applyPut env cmd :: rest => assignedVersions (ApplyWatchPut env r cmd).1 rest
  | r, Step.applyDel env cmd :: rest => assignedVersions (ApplyWatchDel env r cmd).1 rest

/-- Every `WatchPut` of the run is successful. -/
def allPutsSucceed {σ : Type} : Range σ → List (Step σ) → Bool
  | _, [] => true
  | r, Step.put env msg req :: rest =>
    putSucceeds env r msg req && allPutsSucceed (WatchPut env r msg req).1 rest
  | r, Step.applyPut env cmd :: rest => allPutsSucceed (ApplyWatchPut env r cmd).1 rest
  | r, Step.applyDel env cmd :: rest => allPutsSucceed (ApplyWatchDel env r cmd).1 rest

/-- Number of `WatchPut` requests in a run. -/
def putCount {σ : Type} : List (Step σ) → Nat
  | [] => 0
  | Step.put _ _ _ :: rest => putCount rest + 1
  | Step.applyPut _ _ :: rest => putCount rest
  | Step.applyDel _ _ :: rest => putCount rest

/-- Two successful Puts of `foo` on `demoRange` with the apply of the first one
in between. -/
def demoRun : List (Step (List (String × String))) :=
  [Step.put demoEnv { session_id := 9 } demoPutReq,
   Step.applyPut demoEnv demoPutCmd,
   Step.put demoEnv { session_id := 9 } demoPutReq]

/-! # Theorems -/

/-! ## Lemmas on the watcher registry and the notification loop -/

theorem DelKeyWatcher_subset (w : List (String × ProtoMessage)) (sid : Int) (key : String) :
    ∀ x ∈ (DelKeyWatcher w sid key).2, x ∈ w := by
  intro x hx
  unfold DelKeyWatcher at hx
  split at hx
  · exact (List.mem_filter.mp hx).1
  · exact hx

theorem DelKeyWatcher_other_key (w : List (String × ProtoMessage)) (sid : Int)
    (key k : String) (hk : k ≠ key) :
    GetKeyWatchers (DelKeyWatcher w sid key).2 k = GetKeyWatchers w k := by
  unfold DelKeyWatcher GetKeyWatchers
  split
  · simp only [List.filter_filter]
    congr 1
    apply List.filter_congr
    intro x _
    by_cases hx : x.1 = k
    · have : x.1 ≠ key := fun h => hk (hx ▸ h)
      simp [hx, this, hk]
    · simp [hx]
  · rfl

theorem notifyLoop_calls {σ : Type} (env : Env σ) (resp : DsWatchResponse) (key : String)
    (vec : List ProtoMessage) (w : List (String × ProtoMessage)) :
    ∀ e ∈ (notifyLoop env resp key vec w).2,
      (∃ m ∈ vec, e = Effect.SocketSend m.session_id resp) ∨
      (∃ m ∈ vec, e = Effect.DelKeyWatcher m.session_id key) := by
  induction vec generalizing w with
  | nil => intro e he; simp [notifyLoop] at he
  | cons m rest ih =>
    intro e he
    unfold notifyLoop at he
    split at he
    · simp only [List.mem_cons] at he
      rcases he with he | he
      · exact Or.inl ⟨m, List.mem_cons_self _ _, he⟩
      · rcases ih w e he with ⟨m2, hm2, h⟩ | ⟨m2, hm2, h⟩
        · exact Or.inl ⟨m2, List.mem_cons_of_mem _ hm2, h⟩
        · exact Or.inr ⟨m2, List.mem_cons_of_mem _ hm2, h⟩
    · simp only [List.mem_cons] at he
      rcases he with he | he | he
      · exact Or.inl ⟨m, List.mem_cons_self _ _, he⟩
      · exact Or.inr ⟨m, List.mem_cons_self _ _, he⟩
      · rcases ih _ e he with ⟨m2, hm2, h⟩ | ⟨m2, hm2, h⟩
        · exact Or.inl ⟨m2, List.mem_cons_of_mem _ hm2, h⟩
        · exact Or.inr ⟨m2, List.mem_cons_of_mem _ hm2, h⟩

theorem notifyLoop_pushes_all {σ : Type} (env : Env σ) (resp : DsWatchResponse) (key : String)
    (vec : List ProtoMessage) (w : List (String × ProtoMessage)) :
    ∀ m ∈ vec, Effect.SocketSend m.session_id resp ∈ (notifyLoop env resp key vec w).2 := by
  induction vec generalizing w with
  | nil => intro m hm; simp at hm
  | cons a rest ih =>
    intro m hm
    unfold notifyLoop
    rcases List.mem_cons.mp hm with h | h
    · subst h
      split <;> simp
    · split
      · exact List.mem_cons_of_mem _ (ih w m h)
      · exact List.mem_cons_of_mem _ (List.mem_cons_of_mem _ (ih _ m h))

theorem notifyLoop_subset {σ : Type} (env : Env σ) (resp : DsWatchResponse) (key : String)
    (vec : List ProtoMessage) (w : List (String × ProtoMessage)) :
    ∀ x ∈ (notifyLoop env resp key vec w).1, x ∈ w := by
  induction vec generalizing w with
  | nil => intro x hx; simpa [notifyLoop] using hx
  | cons a rest ih =>
    intro x hx
    unfold notifyLoop at hx
    split at hx
    · exact ih w x hx
    · exact DelKeyWatcher_subset w a.session_id key x (ih _ x hx)

theorem notifyLoop_other_key {σ : Type} (env : Env σ) (resp : DsWatchResponse) (key k : String)
    (hk : k ≠ key) (vec : List ProtoMessage) (w : List (String × ProtoMessage)) :
    GetKeyWatchers (notifyLoop env resp key vec w).1 k = GetKeyWatchers w k := by
  induction vec generalizing w with
  | nil => simp [notifyLoop]
  | cons a rest ih =>
    unfold notifyLoop
    split
    · exact ih w
    · simp only []
      rw [ih, DelKeyWatcher_other_key w a.session_id key k hk]

/-- The state fields `WatchNotify` leaves alone, and the shape of its calls: only
socket pushes to watchers of the record's key and `DelKeyWatcher` calls. -/
theorem WatchNotify_frame {σ : Type} (env : Env σ) (r : Range σ) (t : EventType)
    (kv : WatchKeyValue) :
    (WatchNotify env r t kv).1.store_ = r.store_ ∧
    (WatchNotify env r t kv).1.version_seq_ = r.version_seq_ ∧
    (WatchNotify env r t kv).1.meta_ = r.meta_ ∧
    (WatchNotify env r t kv).1.node_id_ = r.node_id_ ∧
    (WatchNotify env r t kv).1.is_leader_ = r.is_leader_ ∧
    (∀ x ∈ (WatchNotify env r t kv).1.key_watchers_, x ∈ r.key_watchers_) ∧
    (∀ e ∈ (WatchNotify env r t kv).2.1,
      (∃ m ∈ GetKeyWatchers r.key_watchers_ (notifyKey kv), ∃ resp,
          e = Effect.SocketSend m.session_id resp) ∨
      (∃ sid k, e = Effect.DelKeyWatcher sid k)) := by
  unfold WatchNotify
  simp only []
  by_cases hd : (env.DecodeKv (eventFuncId t) r.meta_ kv (notifyKey kv) kv.value).ret = Code.kOk
  · rw [if_neg (by simpa using hd)]
    by_cases hl : (GetKeyWatchers r.key_watchers_ (notifyKey kv)).length > 0
    · rw [if_pos hl]
      refine ⟨rfl, rfl, rfl, rfl, rfl, ?_, ?_⟩
      · exact notifyLoop_subset env _ _ _ _
      · intro e he
        rcases notifyLoop_calls env _ _ _ _ e he with ⟨m, hm, h⟩ | ⟨m, _, h⟩
        · exact Or.inl ⟨m, hm, _, h⟩
        · exact Or.inr ⟨_, _, h⟩
    · rw [if_neg hl]
      simp
  · rw [if_pos (by simpa using hd)]
    split <;> simp

theorem WatchNotify_no_reply {σ : Type} (env : Env σ) (r : Range σ) (t : EventType)
    (kv : WatchKeyValue) : countReplies (WatchNotify env r t kv).2.1 = 0 := by
  unfold countReplies
  rw [List.countP_eq_zero]
  intro e he
  rcases (WatchNotify_frame env r t kv).2.2.2.2.2.2 e he with ⟨m, _, resp, h⟩ | ⟨sid, k, h⟩ <;>
    simp [h, Effect.isSendResponse]

/-- When the decoder accepts the record, `WatchNotify` pushes the event to every
registered watcher of the key and returns an ok status. -/
theorem WatchNotify_decoded {σ : Type} (env : Env σ) (r : Range σ) (t : EventType)
    (kv : WatchKeyValue)
    (hdec : (env.DecodeKv (eventFuncId t) r.meta_ kv (notifyKey kv) kv.value).ret = Code.kOk) :
    (WatchNotify env r t kv).2.2 = some Status.OK ∧
    ∀ m ∈ GetKeyWatchers r.key_watchers_ (notifyKey kv),
      Effect.SocketSend m.session_id
        (notifyResponse t (env.DecodeKv (eventFuncId t) r.meta_ kv (notifyKey kv) kv.value).kv)
        ∈ (WatchNotify env r t kv).2.1 := by
  unfold WatchNotify
  simp only []
  rw [if_neg (by simpa using hdec)]
  by_cases hl : (GetKeyWatchers r.key_watchers_ (notifyKey kv)).length > 0
  · rw [if_pos hl]
    refine ⟨rfl, ?_⟩
    intro m hm
    exact notifyLoop_pushes_all env _ _ _ _ m hm
  · rw [if_neg hl]
    refine ⟨rfl, ?_⟩
    intro m hm
    have h0 : (GetKeyWatchers r.key_watchers_ (notifyKey kv)).length = 0 := by omega
    rw [List.length_eq_zero] at h0
    rw [h0] at hm
    simp at hm

/-- When the decoder rejects the record, `WatchNotify` makes no call and leaves
the state alone; it returns `kUnknown` with the message of the error the
decoder stored in `err`, and does not return when `err` was left null. -/
theorem WatchNotify_rejected {σ : Type} (env : Env σ) (r : Range σ) (t : EventType)
    (kv : WatchKeyValue)
    (hdec : (env.DecodeKv (eventFuncId t) r.meta_ kv (notifyKey kv) kv.value).ret ≠ Code.kOk) :
    (WatchNotify env r t kv).1 = r ∧ (WatchNotify env r t kv).2.1 = [] ∧
    (WatchNotify env r t kv).2.2 =
      (env.DecodeKv (eventFuncId t) r.meta_ kv (notifyKey kv) kv.value).err.map
        (fun e => ({ code := Code.kUnknown, msg := e.message } : Status)) := by
  unfold WatchNotify
  simp only []
  rw [if_pos (by simpa using hdec)]
  cases (env.DecodeKv (eventFuncId t) r.meta_ kv (notifyKey kv) kv.value).err <;> simp

/-- `WatchNotify` calls `DelKeyWatcher` with the empty string as key, so the
watchers registered under a record's key, when that key is not the empty
string, are the same after the call as before. -/
theorem WatchNotify_keeps_watchers {σ : Type} (env : Env σ) (r : Range σ) (t : EventType)
    (kv : WatchKeyValue) (hk : notifyKey kv ≠ "") :
    GetKeyWatchers (WatchNotify env r t kv).1.key_watchers_ (notifyKey kv) =
      GetKeyWatchers r.key_watchers_ (notifyKey kv) := by
  unfold WatchNotify
  simp only []
  by_cases hd : (env.DecodeKv (eventFuncId t) r.meta_ kv (notifyKey kv) kv.value).ret = Code.kOk
  · rw [if_neg (by simpa using hd)]
    by_cases hl : (GetKeyWatchers r.key_watchers_ (notifyKey kv)).length > 0
    · rw [if_pos hl]
      exact notifyLoop_other_key env _ "" (notifyKey kv) hk _ _
    · rw [if_neg hl]
  · rw [if_pos (by simpa using hd)]
    split <;> rfl

/-- With a decoder that rejects the record and leaves `err` null, `ApplyWatchPut`
replies to the client and then does not return. -/
theorem ApplyWatchPut_silent_rejection :
    (ApplyWatchPut silentCorruptEnv demoRange outsidePutCmd).2.1 =
      [Effect.SendResponse outsidePutCmd Code.kInvalidArgument
        (some (Error.key_not_in_range "zoo"))] ∧
    (ApplyWatchPut silentCorruptEnv demoRange outsidePutCmd).2.2 = none := by
  decide

/-! ## Lemmas on the apply functions -/

theorem countReplies_append (a b : List Effect) :
    countReplies (a ++ b) = countReplies a + countReplies b := by
  simp [countReplies, List.countP_append]

/-- With the key in range, `ApplyWatchDel` deletes, replies with the code of the
storage call (on the originating node) and notifies. -/
theorem ApplyWatchDel_in_range {σ : Type} (env : Env σ) (r : Range σ) (cmd : Command)
    (hin : KeyInRange r cmd.kv.key0 = true) :
    ApplyWatchDel env r cmd =
      ((WatchNotify env { r with store_ := (env.storeDelete r.store_ cmd.kv.key0).2 }
          EventType.DELETE cmd.kv).1,
       [Effect.StoreDelete cmd.kv.key0] ++
       (if cmd.node_id = r.node_id_ then
          [Effect.SendResponse cmd (env.storeDelete r.store_ cmd.kv.key0).1.code none]
        else []) ++
       (WatchNotify env { r with store_ := (env.storeDelete r.store_ cmd.kv.key0).2 }
          EventType.DELETE cmd.kv).2.1,
       (WatchNotify env { r with store_ := (env.storeDelete r.store_ cmd.kv.key0).2 }
          EventType.DELETE cmd.kv).2.2) := by
  simp [ApplyWatchDel, KeyInRangeErr, hin]

theorem ApplyWatchPut_countReplies {σ : Type} (env : Env σ) (r : Range σ) (cmd : Command) :
    countReplies (ApplyWatchPut env r cmd).2.1 = if cmd.node_id = r.node_id_ then 1 else 0 := by
  unfold ApplyWatchPut
  simp only [countReplies_append, WatchNotify_no_reply]
  by_cases ho : cmd.node_id = r.node_id_
  · simp only [ho, if_true]
    cases hk : KeyInRangeErr r cmd.kv.key0 with
    | some e => simp [countReplies, Effect.isSendResponse]
    | none =>
      by_cases hp : (env.storePut r.store_ cmd.kv.key0 cmd.kv.value).1.ok = true
      · simp [countReplies, Effect.isSendResponse, hp]
      · simp [countReplies, Effect.isSendResponse, hp]
  · simp only [ho, if_false]
    cases hk : KeyInRangeErr r cmd.kv.key0 with
    | some e => simp [countReplies]
    | none =>
      by_cases hp : (env.storePut r.store_ cmd.kv.key0 cmd.kv.value).1.ok = true
      · simp [countReplies, Effect.isSendResponse, hp]
      · simp [countReplies, Effect.isSendResponse, hp]

theorem ApplyWatchDel_countReplies {σ : Type} (env : Env σ) (r : Range σ) (cmd : Command) :
    countReplies (ApplyWatchDel env r cmd).2.1 = if cmd.node_id = r.node_id_ then 1 else 0 := by
  unfold ApplyWatchDel
  simp only [countReplies_append, WatchNotify_no_reply]
  by_cases ho : cmd.node_id = r.node_id_
  · simp only [ho, if_true]
    cases hk : KeyInRangeErr r cmd.kv.key0 with
    | some e => simp [countReplies, Effect.isSendResponse]
    | none => simp [countReplies, Effect.isSendResponse]
  · simp only [ho, if_false]
    cases hk : KeyInRangeErr r cmd.kv.key0 with
    | some e => simp [countReplies]
    | none => simp [countReplies, Effect.isSendResponse]

/-- Over node identifiers without repetition, the indicator of one member sums to 1. -/
theorem sum_indicator_nodup (x : Nat) (ids : List Nat) (hnd : ids.Nodup) (hx : x ∈ ids) :
    (ids.map (fun n => if x = n then 1 else 0)).sum = 1 := by
  induction ids with
  | nil => simp at hx
  | cons a rest ih =>
    have hnd2 := List.nodup_cons.mp hnd
    by_cases hxa : x = a
    · subst hxa
      have hz : (rest.map (fun n => if x = n then 1 else 0)).sum = 0 := by
        apply List.sum_eq_zero
        intro v hv
        rcases List.mem_map.mp hv with ⟨n, hn, rfl⟩
        have : x ≠ n := fun h => hnd2.1 (h ▸ hn)
        simp [this]
      simp [hz]
    · have hx2 : x ∈ rest := by
        rcases List.mem_cons.mp hx with h | h
        · exact absurd h hxa
        · exact h
      simp [hxa, ih hnd2.2 hx2]

/-! ## C1: requests on a replica that is not leader -/

/-- C1 (as amended): on a replica that is not leader, `WatchGet` and `PureGet`
answer with the NotLeader error, `WatchPut` and `WatchDel` answer with the
NotLeader error when `CheckWriteable` holds and with code `kNoLeftSpace` and no
error when it does not; in every case the reply is the only call made (no
storage read or write, no proposal, no watcher registration) and the range
state, version counter included, is unchanged. -/
theorem C1_not_leader_replies {σ : Type} (env : Env σ) (r : Range σ) (msg : ProtoMessage)
    (g : DsWatchRequest) (p : DsKvWatchGetMultiRequest) (w : DsKvWatchPutRequest)
    (d : DsKvWatchDeleteRequest) (hl : r.is_leader_ = false) :
    WatchGet env r msg g =
      (r, [Effect.Send msg.session_id
            { emptyResponse with header_error := some Error.not_leader }]) ∧
    PureGet env r msg p =
      (r, [Effect.Send msg.session_id
            { emptyResponse with header_error := some Error.not_leader }]) ∧
    WatchPut env r msg w =
      (r, [if env.CheckWriteable then
             Effect.SendError msg.session_id Code.kOk (some Error.not_leader)
           else Effect.SendError msg.session_id Code.kNoLeftSpace none]) ∧
    WatchDel env r msg d =
      (r, [if env.CheckWriteable then
             Effect.SendError msg.session_id Code.kOk (some Error.not_leader)
           else Effect.SendError msg.session_id Code.kNoLeftSpace none]) := by
  refine ⟨?_, ?_, ?_, ?_⟩
  · simp [WatchGet, WatchGetBlock, VerifyLeader, hl]
  · simp [PureGet, PureGetBlock, VerifyLeader, hl]
  · cases hw : env.CheckWriteable <;> simp [WatchPut, VerifyLeader, finishWrite, hl, hw]
  · cases hw : env.CheckWriteable <;> simp [WatchDel, VerifyLeader, finishWrite, hl, hw]

/-- C1 witness: the follower `demoFollower` with a writable environment. -/
theorem C1_not_leader_replies_witness :
    demoFollower.is_leader_ = false ∧
    (WatchGet demoEnv demoFollower { session_id := 9 } demoGetReq =
      (demoFollower, [Effect.Send 9
            { emptyResponse with header_error := some Error.not_leader }]) ∧
    PureGet demoEnv demoFollower { session_id := 9 } demoPureReq =
      (demoFollower, [Effect.Send 9
            { emptyResponse with header_error := some Error.not_leader }]) ∧
    WatchPut demoEnv demoFollower { session_id := 9 } demoPutReq =
      (demoFollower, [if demoEnv.CheckWriteable then
             Effect.SendError 9 Code.kOk (some Error.not_leader)
           else Effect.SendError 9 Code.kNoLeftSpace none]) ∧
    WatchDel demoEnv demoFollower { session_id := 9 } demoDelReq =
      (demoFollower, [if demoEnv.CheckWriteable then
             Effect.SendError 9 Code.kOk (some Error.not_leader)
           else Effect.SendError 9 Code.kNoLeftSpace none])) :=
  ⟨rfl, C1_not_leader_replies demoEnv demoFollower { session_id := 9 } demoGetReq demoPureReq
    demoPutReq demoDelReq rfl⟩

/-- C1 counterexample: on a follower whose disk is full, `WatchPut` and
`WatchDel` answer with code `kNoLeftSpace` and no error at all, so the client
is not told NotLeader. -/
theorem C1_counterexample_full_disk :
    demoFollower.is_leader_ = false ∧
    (WatchPut fullDiskEnv demoFollower { session_id := 9 } demoPutReq).2 =
      [Effect.SendError 9 Code.kNoLeftSpace none] ∧
    (WatchDel fullDiskEnv demoFollower { session_id := 9 } demoDelReq).2 =
      [Effect.SendError 9 Code.kNoLeftSpace none] ∧
    Effect.SendError 9 Code.kOk (some Error.not_leader) ∉
      (WatchPut fullDiskEnv demoFollower { session_id := 9 } demoPutReq).2 := by
  decide

/-! ## C3: Put outside the range with the current epoch -/

/-- C3: on a writable leader range, a `WatchPut` whose encoded key lies outside
the range and whose header epoch equals the range's epoch is answered with a
KeyNotInRange error; that reply is the only call made, so `SubmitCmd` is not
called, and the store is left as it was. -/
theorem C3_put_outside_range_rejected {σ : Type} (env : Env σ) (r : Range σ)
    (msg : ProtoMessage) (req : DsKvWatchPutRequest)
    (hw : env.CheckWriteable = true) (hl : r.is_leader_ = true)
    (henc : (env.EncodeKv FunctionID.kFuncWatchPut r.meta_
              { req.kv with version := r.version_seq_ }).ret = 0)
    (hout : KeyInRange r (env.EncodeKv FunctionID.kFuncWatchPut r.meta_
              { req.kv with version := r.version_seq_ }).db_key = false)
    (hep : req.header.range_epoch = r.meta_.range_epoch) :
    (WatchPut env r msg req).2 =
      [Effect.SendError msg.session_id Code.kOk
        (some (Error.key_not_in_range
          (if req.kv.key.isEmpty then "-"
           else (env.EncodeKv FunctionID.kFuncWatchPut r.meta_
                  { req.kv with version := r.version_seq_ }).db_key)))] ∧
    (∀ e ∈ (WatchPut env r msg req).2, e.isSubmit = false ∧ e.isStoreWrite = false) ∧
    (WatchPut env r msg req).1.store_ = r.store_ := by
  have hv : VerifyLeader r = none := by simp [VerifyLeader, hl]
  have hkr : ∀ v : Int, KeyInRange { r with version_seq_ := v } = KeyInRange r := fun _ => rfl
  by_cases hk : req.kv.key.isEmpty = true
  · simp [WatchPut, hv, finishWrite, hw, hk, KeyNotInRange, Effect.isSubmit,
      Effect.isStoreWrite]
  · simp [WatchPut, hv, finishWrite, hw, hk, KeyNotInRange, Effect.isSubmit,
      Effect.isStoreWrite, henc, hout, hkr, EpochIsEqual, hep]

/-- C3 witness: on `demoRange` (writable leader, keys from `a` to `z`, epoch 5) a
Put of `zoo` with epoch 5. -/
theorem C3_put_outside_range_rejected_witness :
    demoEnv.CheckWriteable = true ∧ demoRange.is_leader_ = true ∧
    KeyInRange demoRange "zoo" = false ∧
    currentPutReq.header.range_epoch = demoRange.meta_.range_epoch ∧
    (WatchPut demoEnv demoRange { session_id := 9 } currentPutReq).2 =
      [Effect.SendError 9 Code.kOk (some (Error.key_not_in_range "zoo"))] :=
  ⟨rfl, rfl, by decide, rfl,
    (C3_put_outside_range_rejected demoEnv demoRange { session_id := 9 } currentPutReq
      rfl rfl (by decide) (by decide) rfl).1⟩

/-! ## C7: one reply per command over K replicas -/

/-- C7: for replicas with pairwise distinct node identifiers, one of which is the
originator of the command, applying the command on all of them with
`ApplyWatchPut` (and likewise with `ApplyWatchDel`) calls `SendResponse` once in
total: once on the originating replica and never on another one, whatever the
environment, range boundaries and storage results of each replica are. -/
theorem C7_exactly_one_reply {σ : Type} (replicas : List (Env σ × Range σ)) (cmd : Command)
    (hdistinct : (replicas.map (fun p => p.2.node_id_)).Nodup)
    (horigin : cmd.node_id ∈ replicas.map (fun p => p.2.node_id_)) :
    (replicas.map (fun p => countReplies (ApplyWatchPut p.1 p.2 cmd).2.1)).sum = 1 ∧
    (replicas.map (fun p => countReplies (ApplyWatchDel p.1 p.2 cmd).2.1)).sum = 1 ∧
    (∀ p ∈ replicas, p.2.node_id_ = cmd.node_id →
      countReplies (ApplyWatchPut p.1 p.2 cmd).2.1 = 1 ∧
      countReplies (ApplyWatchDel p.1 p.2 cmd).2.1 = 1) ∧
    (∀ p ∈ replicas, p.2.node_id_ ≠ cmd.node_id →
      countReplies (ApplyWatchPut p.1 p.2 cmd).2.1 = 0 ∧
      countReplies (ApplyWatchDel p.1 p.2 cmd).2.1 = 0) := by
  have hsum := sum_indicator_nodup cmd.node_id _ hdistinct horigin
  rw [List.map_map] at hsum
  refine ⟨?_, ?_, ?_, ?_⟩
  · simpa [ApplyWatchPut_countReplies, Function.comp_def] using hsum
  · simpa [ApplyWatchDel_countReplies, Function.comp_def] using hsum
  · intro p _ hp
    simp [ApplyWatchPut_countReplies, ApplyWatchDel_countReplies, hp]
  · intro p _ hp
    have hne : cmd.node_id ≠ p.2.node_id_ := fun h => hp h.symm
    simp [ApplyWatchPut_countReplies, ApplyWatchDel_countReplies, hne]

/-- C7 witness: the leader (node 1) and a follower (node 2) applying the Put
command of node 1. -/
theorem C7_exactly_one_reply_witness :
    (demoReplicas.map (fun p => p.2.node_id_)).Nodup ∧
    demoPutCmd.node_id ∈ demoReplicas.map (fun p => p.2.node_id_) ∧
    (demoReplicas.map (fun p => countReplies (ApplyWatchPut p.1 p.2 demoPutCmd).2.1)).sum = 1 :=
  ⟨by decide, by decide,
    (C7_exactly_one_reply demoReplicas demoPutCmd (by decide) (by decide)).1⟩

/-! ## C9: commands outside the range at apply time -/

/-- C4 counterexample: on the writable leader `demoRange` (keys from `a` to `z`,
epoch 5), with a replication layer that accepts every command, a `WatchPut` and
a `WatchDel` of `zoo` with epoch 4 are answered with the RaftFail error and
`SubmitCmd` is never called: `WatchPutSubmit` and `WatchDeleteSubmit` test
`KeyInRange` again and refuse. -/
theorem C4_counterexample_write_refused :
    demoRange.is_leader_ = true ∧ demoEnv.CheckWriteable = true ∧
    KeyInRange demoRange "zoo" = false ∧
    stalePutReq.header.range_epoch ≠ demoRange.meta_.range_epoch ∧
    (demoEnv.SubmitCmd outsidePutCmd).ok = true ∧
    (WatchPut demoEnv demoRange { session_id := 9 } stalePutReq).2 =
      [Effect.SendError 9 Code.kOk (some Error.raft_fail)] ∧
    (WatchDel demoEnv demoRange { session_id := 9 } staleDelReq).2 =
      [Effect.SendError 9 Code.kOk (some Error.raft_fail)] := by
  decide

/-- C4 (as amended): on a leader range, for a request whose encoded key lies
outside the range and whose header epoch differs from the range's epoch: the
reads are not rejected for the key and reach the store (`WatchGet` calls the
store's `Get`; `PureGet` calls `Get`, or `NewIterator` when the prefix flag is
set), and the only error their reply can carry is one set by the codec;
`WatchPut` and `WatchDel` (writable range) pass the entry check without a
KeyNotInRange error, but `WatchPutSubmit` and `WatchDeleteSubmit` test
`KeyInRange` again, `SubmitCmd` is not called, and the client is answered with
the RaftFail error. -/
theorem C4_stale_epoch_outside_range {σ : Type} (env : Env σ) (r : Range σ)
    (msg : ProtoMessage) (g : DsWatchRequest) (p : DsKvWatchGetMultiRequest)
    (w : DsKvWatchPutRequest) (d : DsKvWatchDeleteRequest) (hl : r.is_leader_ = true) :
    ((env.EncodeKv FunctionID.kFuncWatchGet r.meta_ g.kv).ret = 0 →
      KeyInRange r (env.EncodeKv FunctionID.kFuncWatchGet r.meta_ g.kv).db_key = false →
      g.header.range_epoch ≠ r.meta_.range_epoch →
      Effect.StoreGet (env.EncodeKv FunctionID.kFuncWatchGet r.meta_ g.kv).db_key
        ∈ (WatchGet env r msg g).2 ∧
      ∀ sid resp, Effect.Send sid resp ∈ (WatchGet env r msg g).2 →
        resp.header_error =
          (match (env.DecodeKv FunctionID.kFuncWatchGet r.meta_ g.kv
                    (env.EncodeKv FunctionID.kFuncWatchGet r.meta_ g.kv).db_key
                    (env.storeGet r.store_
                      (env.EncodeKv FunctionID.kFuncWatchGet r.meta_ g.kv).db_key).2).err with
           | some e => some e
           | none => (env.EncodeKv FunctionID.kFuncWatchGet r.meta_ g.kv).err)) ∧
    (p.kv.key ≠ [] →
      (env.EncodeKv FunctionID.kFuncWatchGet r.meta_ p.kv).ret = 0 →
      KeyInRange r (env.EncodeKv FunctionID.kFuncWatchGet r.meta_ p.kv).db_key = false →
      p.header.range_epoch ≠ r.meta_.range_epoch →
      (if p.pfx then
          Effect.StoreNewIterator (env.EncodeKv FunctionID.kFuncWatchGet r.meta_ p.kv).db_key
            (env.EncodeKv FunctionID.kFuncWatchGet r.meta_ p.kv).db_key
        else Effect.StoreGet (env.EncodeKv FunctionID.kFuncWatchGet r.meta_ p.kv).db_key)
        ∈ (PureGet env r msg p).2 ∧
      ∀ sid resp, Effect.Send sid resp ∈ (PureGet env r msg p).2 →
        resp.header_error = (env.EncodeKv FunctionID.kFuncWatchGet r.meta_ p.kv).err) ∧
    (env.CheckWriteable = true → w.kv.key ≠ [] →
      (env.EncodeKv FunctionID.kFuncWatchPut r.meta_
        { w.kv with version := r.version_seq_ }).ret = 0 →
      KeyInRange r (env.EncodeKv FunctionID.kFuncWatchPut r.meta_
        { w.kv with version := r.version_seq_ }).db_key = false →
      w.header.range_epoch ≠ r.meta_.range_epoch →
      WatchPut env r msg w =
        ({ r with version_seq_ := wrapInt64 (r.version_seq_ + 1) },
         [Effect.SendError msg.session_id Code.kOk (some Error.raft_fail)])) ∧
    (env.CheckWriteable = true → d.kv.key ≠ [] →
      (env.EncodeKv FunctionID.kFuncWatchDel r.meta_ d.kv).ret = 0 →
      KeyInRange r (env.EncodeKv FunctionID.kFuncWatchDel r.meta_ d.kv).db_key = false →
      d.header.range_epoch ≠ r.meta_.range_epoch →
      WatchDel env r msg d =
        (r, [Effect.SendError msg.session_id Code.kOk (some Error.raft_fail)])) := by
  have hv : VerifyLeader r = none := by simp [VerifyLeader, hl]
  have hkr : ∀ v : Int, KeyInRange { r with version_seq_ := v } = KeyInRange r := fun _ => rfl
  refine ⟨?_, ?_, ?_, ?_⟩
  · intro henc hout hep
    have hep2 : ¬ r.meta_.range_epoch = g.header.range_epoch := fun h => hep h.symm
    have hb : WatchGetBlock env r msg g =
        { err := (match (env.DecodeKv FunctionID.kFuncWatchGet r.meta_ g.kv
                    (env.EncodeKv FunctionID.kFuncWatchGet r.meta_ g.kv).db_key
                    (env.storeGet r.store_
                      (env.EncodeKv FunctionID.kFuncWatchGet r.meta_ g.kv).db_key).2).err with
                  | some e => some e
                  | none => (env.EncodeKv FunctionID.kFuncWatchGet r.meta_ g.kv).err),
          dbKey := (env.EncodeKv FunctionID.kFuncWatchGet r.meta_ g.kv).db_key,
          resp := { header_error := none, watchId := msg.session_id,
                    code := (env.storeGet r.store_
                      (env.EncodeKv FunctionID.kFuncWatchGet r.meta_ g.kv).db_key).1.code,
                    events := [{ type := EventType.PUT,
                                 kv := (env.DecodeKv FunctionID.kFuncWatchGet r.meta_ g.kv
                    (env.EncodeKv FunctionID.kFuncWatchGet r.meta_ g.kv).db_key
                    (env.storeGet r.store_
                      (env.EncodeKv FunctionID.kFuncWatchGet r.meta_ g.kv).db_key).2).kv }] },
          effects := [Effect.StoreGet
            (env.EncodeKv FunctionID.kFuncWatchGet r.meta_ g.kv).db_key] } := by
      simp [WatchGetBlock, hv, henc, hout, EpochIsEqual, hep2]
    unfold WatchGet
    rw [hb]
    simp only []
    split
    · rename_i e he
      constructor
      · simp
      · intro sid resp hmem
        simp at hmem
        rw [hmem.2, he]
    · rename_i he
      split
      · constructor
        · simp
        · intro sid resp hmem
          simp at hmem
          rw [hmem.2, he]
      · constructor
        · simp
        · intro sid resp hmem
          simp at hmem
          rw [hmem.2, he]
  · intro hk henc hout hep
    have hep2 : ¬ r.meta_.range_epoch = p.header.range_epoch := fun h => hep h.symm
    have hk2 : p.kv.key.isEmpty = false := by
      cases hkk : p.kv.key with
      | nil => exact absurd hkk hk
      | cons a l => rfl
    cases hp : p.pfx <;>
      simp [PureGet, PureGetBlock, hv, hk2, henc, hout, EpochIsEqual, hep2, hp]
  · intro hw hk henc hout hep
    have hep2 : ¬ r.meta_.range_epoch = w.header.range_epoch := fun h => hep h.symm
    have hk2 : w.kv.key.isEmpty = false := by
      cases hkk : w.kv.key with
      | nil => exact absurd hkk hk
      | cons a l => rfl
    simp [WatchPut, WatchPutSubmit, WatchKeyValue.key0, hv, hk2, hw, henc, hkr, hout,
      EpochIsEqual, hep2, finishWrite, RaftFailError]
  · intro hw hk henc hout hep
    have hep2 : ¬ r.meta_.range_epoch = d.header.range_epoch := fun h => hep h.symm
    have hk2 : ¬ d.kv.key.length < 1 := by
      cases hkk : d.kv.key with
      | nil => exact absurd hkk hk
      | cons a l => simp
    simp [WatchDel, WatchDeleteSubmit, WatchKeyValue.key0, hv, hk2, hw, henc, hout,
      EpochIsEqual, hep2, finishWrite, RaftFailError]

/-- C4 witness: the four requests for `zoo` with epoch 4 on `demoRange`. -/
theorem C4_stale_epoch_outside_range_witness :
    demoRange.is_leader_ = true ∧
    Effect.StoreGet "zoo" ∈ (WatchGet demoEnv demoRange { session_id := 9 } staleGetReq).2 ∧
    Effect.StoreGet "zoo" ∈ (PureGet demoEnv demoRange { session_id := 9 } stalePureReq).2 ∧
    WatchPut demoEnv demoRange { session_id := 9 } stalePutReq =
      ({ demoRange with version_seq_ := wrapInt64 (demoRange.version_seq_ + 1) },
       [Effect.SendError 9 Code.kOk (some Error.raft_fail)]) ∧
    WatchDel demoEnv demoRange { session_id := 9 } staleDelReq =
      (demoRange, [Effect.SendError 9 Code.kOk (some Error.raft_fail)]) :=
  ⟨rfl,
   ((C4_stale_epoch_outside_range demoEnv demoRange { session_id := 9 } staleGetReq
      stalePureReq stalePutReq staleDelReq rfl).1 (by decide) (by decide) (by decide)).1,
   ((C4_stale_epoch_outside_range demoEnv demoRange { session_id := 9 } staleGetReq
      stalePureReq stalePutReq staleDelReq rfl).2.1 (by decide) (by decide) (by decide)
      (by decide)).1,
   (C4_stale_epoch_outside_range demoEnv demoRange { session_id := 9 } staleGetReq
      stalePureReq stalePutReq staleDelReq rfl).2.2.1 rfl (by decide) (by decide) (by decide)
      (by decide),
   (C4_stale_epoch_outside_range demoEnv demoRange { session_id := 9 } staleGetReq
      stalePureReq stalePutReq staleDelReq rfl).2.2.2 rfl (by decide) (by decide) (by decide)
      (by decide)⟩

/-! ## C5: Delete of a key that was never written -/

/-- C5 counterexample: `foo` was never written and the store's `Delete` returns
`kNotFound`, yet session 7, registered as a watcher of `foo`, is pushed a DELETE
event. -/
theorem C5_counterexample_watcher_fired :
    (demoEnv.storeDelete emptyStoreRange.store_ "foo").1.code = Code.kNotFound ∧
    isWatcher emptyStoreRange.key_watchers_ "foo" 7 = true ∧
    Effect.SocketSend 7
      (notifyResponse EventType.DELETE { key := ["foo"], value := "", version := 0 })
      ∈ (ApplyWatchDel demoEnv emptyStoreRange demoDelCmd).2.1 := by
  decide

/-- C5 (as amended): for a Delete command on an in-range key for which the store's
`Delete` returns its not-found code, `ApplyWatchDel` replies on the originating
replica with exactly that code (once, without error), registers no watcher and
adds no entry to the registry, and still runs `WatchNotify(DELETE, kv)`: when
the decoder accepts the record every session registered as a watcher of the
key is pushed the DELETE event, and a push only ever goes to such a session. -/
theorem C5_delete_not_found {σ : Type} (env : Env σ) (r : Range σ) (cmd : Command)
    (hin : KeyInRange r cmd.kv.key0 = true)
    (hnf : (env.storeDelete r.store_ cmd.kv.key0).1.code = Code.kNotFound) :
    (cmd.node_id = r.node_id_ →
      Effect.SendResponse cmd Code.kNotFound none ∈ (ApplyWatchDel env r cmd).2.1 ∧
      countReplies (ApplyWatchDel env r cmd).2.1 = 1) ∧
    (∀ e ∈ (ApplyWatchDel env r cmd).2.1, e.isAddKeyWatcher = false) ∧
    (∀ x ∈ (ApplyWatchDel env r cmd).1.key_watchers_, x ∈ r.key_watchers_) ∧
    ((env.DecodeKv FunctionID.kFuncWatchDel r.meta_ cmd.kv (notifyKey cmd.kv)
        cmd.kv.value).ret = Code.kOk →
      ∀ m ∈ GetKeyWatchers r.key_watchers_ (notifyKey cmd.kv),
        Effect.SocketSend m.session_id
          (notifyResponse EventType.DELETE
            (env.DecodeKv FunctionID.kFuncWatchDel r.meta_ cmd.kv (notifyKey cmd.kv)
              cmd.kv.value).kv) ∈ (ApplyWatchDel env r cmd).2.1) ∧
    (∀ sid resp, Effect.SocketSend sid resp ∈ (ApplyWatchDel env r cmd).2.1 →
      isWatcher r.key_watchers_ (notifyKey cmd.kv) sid = true) := by
  have hfr := WatchNotify_frame env
    { r with store_ := (env.storeDelete r.store_ cmd.kv.key0).2 } EventType.DELETE cmd.kv
  rw [ApplyWatchDel_in_range env r cmd hin, hnf]
  refine ⟨?_, ?_, ?_, ?_, ?_⟩
  · intro ho
    refine ⟨by simp [ho], ?_⟩
    simp only [countReplies_append, WatchNotify_no_reply, ho, if_true]
    simp [countReplies, Effect.isSendResponse]
  · intro e he
    simp only [List.mem_append] at he
    rcases he with (h | h) | h
    · simp at h; simp [h, Effect.isAddKeyWatcher]
    · by_cases ho : cmd.node_id = r.node_id_
      · simp [ho] at h; simp [h, Effect.isAddKeyWatcher]
      · simp [ho] at h
    · rcases hfr.2.2.2.2.2.2 e h with ⟨m, _, resp, h2⟩ | ⟨sid, k, h2⟩ <;>
        simp [h2, Effect.isAddKeyWatcher]
  · exact hfr.2.2.2.2.2.1
  · intro hdec m hm
    have hpush := (WatchNotify_decoded env
      { r with store_ := (env.storeDelete r.store_ cmd.kv.key0).2 } EventType.DELETE cmd.kv
      hdec).2 m hm
    exact List.mem_append_right _ hpush
  · intro sid resp he
    simp only [List.mem_append] at he
    rcases he with (h | h) | h
    · simp at h
    · by_cases ho : cmd.node_id = r.node_id_
      · simp [ho] at h
      · simp [ho] at h
    · rcases hfr.2.2.2.2.2.2 _ h with ⟨m, hm, resp2, h2⟩ | ⟨sid2, k, h2⟩
      · simp only [Effect.SocketSend.injEq] at h2
        simp only [isWatcher, List.any_eq_true, decide_eq_true_eq]
        exact ⟨m, hm, h2.1.symm⟩
      · simp at h2

/-- C5 witness: the Delete of the never written `foo` on `emptyStoreRange`. -/
theorem C5_delete_not_found_witness :
    KeyInRange emptyStoreRange demoDelCmd.kv.key0 = true ∧
    (demoEnv.storeDelete emptyStoreRange.store_ demoDelCmd.kv.key0).1.code = Code.kNotFound ∧
    Effect.SendResponse demoDelCmd Code.kNotFound none
      ∈ (ApplyWatchDel demoEnv emptyStoreRange demoDelCmd).2.1 :=
  ⟨by decide, by decide,
    ((C5_delete_not_found demoEnv emptyStoreRange demoDelCmd (by decide) (by decide)).1 rfl).1⟩

/-! ## C10: notification after a failed write -/

/-- C10 counterexample: with a decoder that rejects the record and stores an
error in `err`, `ApplyWatchPut` sends no event to session 7, a registered
watcher of `foo`, and returns `kUnknown` with the message of that error. -/
theorem C10_counterexample_decode_failure :
    isWatcher demoRange.key_watchers_ "foo" 7 = true ∧
    (∀ e ∈ (ApplyWatchPut corruptEnv demoRange demoPutCmd).2.1, e.isSocketSend = false) ∧
    (ApplyWatchPut corruptEnv demoRange demoPutCmd).2.2 =
      some { code := Code.kUnknown, msg := "corrupt record" } := by
  decide

/-- C10 (as amended): `ApplyWatchPut` runs `WatchNotify(PUT, kv)` once for every
command, after the write block and the reply and whatever their outcome (range
check failed, store `Put` not ok, or success): its calls are those of the write
block and reply, none of them a socket push, followed by the calls of
`WatchNotify` on the same registry, and what it returns is what `WatchNotify`
returns.  When the decoder accepts the record, every session registered as a
watcher of the key is pushed the PUT event and the returned status is ok; when
the decoder rejects it, no event is pushed, and with the error the decoder
stored in `err` the returned status is `kUnknown` carrying that error's
message. -/
theorem C10_notify_whatever_the_write {σ : Type} (env : Env σ) (r : Range σ) (cmd : Command) :
    (∃ (store1 : σ) (pre : List Effect),
      (∀ e ∈ pre, e.isSocketSend = false) ∧
      ApplyWatchPut env r cmd =
        ((WatchNotify env { r with store_ := store1 } EventType.PUT cmd.kv).1,
         pre ++ (WatchNotify env { r with store_ := store1 } EventType.PUT cmd.kv).2.1,
         (WatchNotify env { r with store_ := store1 } EventType.PUT cmd.kv).2.2)) ∧
    ((env.DecodeKv FunctionID.kFuncWatchPut r.meta_ cmd.kv (notifyKey cmd.kv)
        cmd.kv.value).ret = Code.kOk →
      (ApplyWatchPut env r cmd).2.2 = some Status.OK ∧
      ∀ m ∈ GetKeyWatchers r.key_watchers_ (notifyKey cmd.kv),
        Effect.SocketSend m.session_id
          (notifyResponse EventType.PUT
            (env.DecodeKv FunctionID.kFuncWatchPut r.meta_ cmd.kv (notifyKey cmd.kv)
              cmd.kv.value).kv) ∈ (ApplyWatchPut env r cmd).2.1) ∧
    ((env.DecodeKv FunctionID.kFuncWatchPut r.meta_ cmd.kv (notifyKey cmd.kv)
        cmd.kv.value).ret ≠ Code.kOk →
      (∀ e ∈ (ApplyWatchPut env r cmd).2.1, e.isSocketSend = false) ∧
      ∀ err, (env.DecodeKv FunctionID.kFuncWatchPut r.meta_ cmd.kv (notifyKey cmd.kv)
          cmd.kv.value).err = some err →
        (ApplyWatchPut env r cmd).2.2 =
          some { code := Code.kUnknown, msg := err.message }) := by
  have hshape : ∃ (store1 : σ) (pre : List Effect),
      (∀ e ∈ pre, e.isSocketSend = false) ∧
      ApplyWatchPut env r cmd =
        ((WatchNotify env { r with store_ := store1 } EventType.PUT cmd.kv).1,
         pre ++ (WatchNotify env { r with store_ := store1 } EventType.PUT cmd.kv).2.1,
         (WatchNotify env { r with store_ := store1 } EventType.PUT cmd.kv).2.2) := by
    unfold ApplyWatchPut
    simp only []
    refine ⟨_, _, ?_, rfl⟩
    intro e he
    simp only [List.mem_append] at he
    rcases he with h | h
    · cases hk : KeyInRangeErr r cmd.kv.key0 with
      | some e2 => simp [hk] at h
      | none =>
        simp only [hk] at h
        by_cases hp : (env.storePut r.store_ cmd.kv.key0 cmd.kv.value).1.ok = true
        · by_cases ho : cmd.node_id = r.node_id_
          · simp [hp, ho] at h
            rcases h with h | h <;> simp [h, Effect.isSocketSend]
          · simp [hp, ho] at h
            simp [h, Effect.isSocketSend]
        · simp [hp] at h
          simp [h, Effect.isSocketSend]
    · by_cases ho : cmd.node_id = r.node_id_
      · simp [ho] at h; simp [h, Effect.isSocketSend]
      · simp [ho] at h
  refine ⟨hshape, ?_, ?_⟩
  · intro hdec
    obtain ⟨store1, pre, _, heq⟩ := hshape
    have hd := WatchNotify_decoded env { r with store_ := store1 } EventType.PUT cmd.kv hdec
    rw [heq]
    refine ⟨hd.1, ?_⟩
    intro m hm
    exact List.mem_append_right _ (hd.2 m hm)
  · intro hdec
    obtain ⟨store1, pre, hpre, heq⟩ := hshape
    have hd := WatchNotify_rejected env { r with store_ := store1 } EventType.PUT cmd.kv hdec
    rw [heq]
    refine ⟨?_, ?_⟩
    · intro e he
      simp only [hd.2.1, List.append_nil] at he
      exact hpre e he
    · intro err herr
      have h3 := hd.2.2
      simp only [eventFuncId] at h3
      rw [herr] at h3
      simpa using h3

/-- C10 witness: on `shrunkRange` the key `foo` of the Put command is outside the
range, so nothing is stored, and session 7, which watches `foo`, is still
pushed the PUT event; the returned status is ok, not the status of the range
check. -/
theorem C10_notify_whatever_the_write_witness :
    KeyInRange shrunkRange demoPutCmd.kv.key0 = false ∧
    (ApplyWatchPut demoEnv shrunkRange demoPutCmd).1.store_ = shrunkRange.store_ ∧
    (ApplyWatchPut demoEnv shrunkRange demoPutCmd).2.2 = some Status.OK ∧
    Effect.SocketSend 7
        (notifyResponse EventType.PUT { key := ["foo"], value := "baz", version := 4 })
      ∈ (ApplyWatchPut demoEnv shrunkRange demoPutCmd).2.1 :=
  ⟨by decide, by decide,
    ((C10_notify_whatever_the_write demoEnv shrunkRange demoPutCmd).2.1 (by decide)).1,
    ((C10_notify_whatever_the_write demoEnv shrunkRange demoPutCmd).2.1 (by decide)).2
      { session_id := 7 } (by decide)⟩

/-! ## C2: one-shot delivery -/

/-- C2 (evaluation at the failing input): session 7 sends a `WatchGet` of `foo`
and is registered as its watcher; then the leader applies the Put of `foo` to
`baz` at version 4, the store accepts it and the push to session 7 succeeds.
Session 7 is pushed the PUT event with the committed key, value and version
once, `DelKeyWatcher` is called with the empty string as key, and session 7 is
still registered as a watcher of `foo` after `ApplyWatchPut` has returned. -/
theorem C2_watcher_not_removed :
    watchedRange.key_watchers_ = [("foo", { session_id := 7 })] ∧
    (ApplyWatchPut demoEnv watchedRange demoPutCmd).2.1 =
      [Effect.StorePut "foo" demoPutCmd.kv.value,
       Effect.CheckSplit demoPutCmd.kv,
       Effect.SendResponse demoPutCmd Code.kOk none,
       Effect.SocketSend 7
         (notifyResponse EventType.PUT { key := ["foo"], value := "baz", version := 4 }),
       Effect.DelKeyWatcher 7 ""] ∧
    demoEnv.socketSend 7
      (notifyResponse EventType.PUT { key := ["foo"], value := "baz", version := 4 }) = 0 ∧
    (ApplyWatchPut demoEnv watchedRange demoPutCmd).2.2 = some Status.OK ∧
    isWatcher (ApplyWatchPut demoEnv watchedRange demoPutCmd).1.key_watchers_ "foo" 7 = true := by
  decide

/-! ## C8: when `WatchGet` registers a watcher -/

theorem isWatcher_AddKeyWatcher (w : List (String × ProtoMessage)) (key : String)
    (msg : ProtoMessage) : isWatcher (AddKeyWatcher w key msg) key msg.session_id = true := by
  unfold isWatcher GetKeyWatchers AddKeyWatcher
  split
  · rename_i h
    simp only [List.any_eq_true, Bool.and_eq_true, decide_eq_true_eq] at h ⊢
    obtain ⟨e, he, hk, hs⟩ := h
    exact ⟨e.2, List.mem_map.mpr ⟨e, List.mem_filter.mpr ⟨he, by simp [hk]⟩, rfl⟩, hs⟩
  · simp only [List.any_eq_true, decide_eq_true_eq]
    refine ⟨msg, List.mem_map.mpr ⟨(key, msg), List.mem_filter.mpr ⟨by simp, by simp⟩, rfl⟩, rfl⟩

/-- When the block of `WatchGet` ends without error, `dbKey` is the encoded key. -/
theorem WatchGetBlock_dbKey {σ : Type} (env : Env σ) (r : Range σ) (msg : ProtoMessage)
    (req : DsWatchRequest) (hok : (WatchGetBlock env r msg req).err = none) :
    (WatchGetBlock env r msg req).dbKey =
      (env.EncodeKv FunctionID.kFuncWatchGet r.meta_ req.kv).db_key := by
  unfold WatchGetBlock at hok ⊢
  cases hv : VerifyLeader r with
  | some e => simp [hv] at hok
  | none =>
    simp only [hv] at hok ⊢
    split
    · rfl
    · split
      · rfl
      · rfl

/-- C8 counterexample: `foo` is stored at version 3.  A `WatchGet` with
`startVersion` 5 ends without error and registers session 9 although 5 is newer
than 3; a `WatchGet` with `startVersion` -1 ends without error and does not
register session 9 although -1 is not newer than 3. -/
theorem C8_counterexample_version_test :
    (demoEnv.DecodeKv FunctionID.kFuncWatchGet demoRange.meta_ demoGetReq.kv "foo"
      (demoEnv.storeGet demoRange.store_ "foo").2).kv.version = 3 ∧
    ((WatchGetBlock demoEnv demoRange { session_id := 9 } demoGetReq).err = none ∧
      demoGetReq.startVersion = 5 ∧
      isWatcher (WatchGet demoEnv demoRange { session_id := 9 } demoGetReq).1.key_watchers_
        "foo" 9 = true) ∧
    ((WatchGetBlock demoEnv demoRange { session_id := 9 }
        { demoGetReq with startVersion := -1 }).err = none ∧
      isWatcher (WatchGet demoEnv demoRange { session_id := 9 }
        { demoGetReq with startVersion := -1 }).1.key_watchers_ "foo" 9 = false) := by
  decide

/-- C8 (as amended): for a `WatchGet` whose block ends without error, the session
is added to the watcher registry under the encoded key whenever `startVersion`
is at least the (non-negative) version stored for the key, and it is not added,
the range state staying as it was, when `startVersion` is negative. -/
theorem C8_registration {σ : Type} (env : Env σ) (r : Range σ) (msg : ProtoMessage)
    (req : DsWatchRequest) (hok : (WatchGetBlock env r msg req).err = none) :
    (0 ≤ (env.DecodeKv FunctionID.kFuncWatchGet r.meta_ req.kv
            (env.EncodeKv FunctionID.kFuncWatchGet r.meta_ req.kv).db_key
            (env.storeGet r.store_
              (env.EncodeKv FunctionID.kFuncWatchGet r.meta_ req.kv).db_key).2).kv.version →
      (env.DecodeKv FunctionID.kFuncWatchGet r.meta_ req.kv
            (env.EncodeKv FunctionID.kFuncWatchGet r.meta_ req.kv).db_key
            (env.storeGet r.store_
              (env.EncodeKv FunctionID.kFuncWatchGet r.meta_ req.kv).db_key).2).kv.version
        ≤ req.startVersion →
      Effect.AddKeyWatcher (env.EncodeKv FunctionID.kFuncWatchGet r.meta_ req.kv).db_key
          msg.session_id ∈ (WatchGet env r msg req).2 ∧
      isWatcher (WatchGet env r msg req).1.key_watchers_
          (env.EncodeKv FunctionID.kFuncWatchGet r.meta_ req.kv).db_key msg.session_id = true) ∧
    (req.startVersion < 0 →
      (WatchGet env r msg req).1 = r ∧
      ∀ e ∈ (WatchGet env r msg req).2, e.isAddKeyWatcher = false) := by
  have hkey := WatchGetBlock_dbKey env r msg req hok
  constructor
  · intro h0 hle
    have hge : req.startVersion ≥ 0 := le_trans h0 hle
    unfold WatchGet
    simp only [hok, hge, if_true, hkey]
    exact ⟨by simp, isWatcher_AddKeyWatcher _ _ _⟩
  · intro hneg
    have hge : ¬ req.startVersion ≥ 0 := not_le.mpr hneg
    unfold WatchGet
    simp only [hok, hge, if_false]
    refine ⟨trivial, ?_⟩
    intro e he
    simp only [List.mem_append, List.mem_singleton] at he
    rcases he with h | h
    · have hb : ∀ e ∈ (WatchGetBlock env r msg req).effects, e.isAddKeyWatcher = false := by
        intro e2 he2
        unfold WatchGetBlock at he2
        cases hv : VerifyLeader r with
        | some e3 => simp [hv] at he2
        | none =>
          simp only [hv] at he2
          split at he2
          · simp at he2
          · split at he2
            · simp at he2
            · simp at he2; simp [he2, Effect.isAddKeyWatcher]
      exact hb e h
    · simp [h, Effect.isAddKeyWatcher]

/-- C8 witness: `foo` is stored at version 3 and the client knows version 5. -/
theorem C8_registration_witness :
    (WatchGetBlock demoEnv demoRange { session_id := 9 } demoGetReq).err = none ∧
    isWatcher (WatchGet demoEnv demoRange { session_id := 9 } demoGetReq).1.key_watchers_
      "foo" 9 = true :=
  ⟨by decide,
    ((C8_registration demoEnv demoRange { session_id := 9 } demoGetReq (by decide)).1
      (by decide) (by decide)).2⟩

/-! ## C6: versions assigned by successive Puts -/

theorem wrapInt64_succ (v : Int) (hlo : -2 ^ 63 ≤ v) (hhi : v + 1 < 2 ^ 63) :
    wrapInt64 (v + 1) = v + 1 := by
  unfold wrapInt64
  norm_num at hlo hhi ⊢
  omega

theorem ApplyWatchPut_version_seq {σ : Type} (env : Env σ) (r : Range σ) (cmd : Command) :
    (ApplyWatchPut env r cmd).1.version_seq_ = r.version_seq_ := by
  unfold ApplyWatchPut
  simp only []
  rw [(WatchNotify_frame env _ EventType.PUT cmd.kv).2.1]

theorem ApplyWatchDel_version_seq {σ : Type} (env : Env σ) (r : Range σ) (cmd : Command) :
    (ApplyWatchDel env r cmd).1.version_seq_ = r.version_seq_ := by
  unfold ApplyWatchDel
  simp only []
  rw [(WatchNotify_frame env _ EventType.DELETE cmd.kv).2.1]

/-- Either `WatchPut` makes exactly one call, a proposal carrying the old value of
the counter as version, and leaves the counter incremented, or its call list is
not a single proposal. -/
theorem WatchPut_shape {σ : Type} (env : Env σ) (r : Range σ) (msg : ProtoMessage)
    (req : DsKvWatchPutRequest) :
    (∃ cmd, (WatchPut env r msg req).2 = [Effect.SubmitCmd cmd] ∧
        cmd.kv.version = r.version_seq_ ∧
        (WatchPut env r msg req).1.version_seq_ = wrapInt64 (r.version_seq_ + 1)) ∨
    (∀ cmd, (WatchPut env r msg req).2 ≠ [Effect.SubmitCmd cmd]) := by
  have hkr : ∀ (l : Bool) (v : Int),
      KeyInRange { r with is_leader_ := l, version_seq_ := v } = KeyInRange r :=
    fun _ _ => rfl
  cases hw : env.CheckWriteable with
  | false => right; simp [WatchPut, hw]
  | true =>
    cases hl : r.is_leader_ with
    | false => right; simp [WatchPut, hw, VerifyLeader, hl, finishWrite]
    | true =>
      cases hk : req.kv.key.isEmpty with
      | true => right; simp [WatchPut, hw, VerifyLeader, hl, hk, finishWrite]
      | false =>
        by_cases henc : (env.EncodeKv FunctionID.kFuncWatchPut r.meta_
            { key := req.kv.key, value := req.kv.value, version := r.version_seq_ }).ret = 0
        · cases hin : KeyInRange r (env.EncodeKv FunctionID.kFuncWatchPut r.meta_
              { key := req.kv.key, value := req.kv.value, version := r.version_seq_ }).db_key with
          | false =>
            right
            by_cases hep : r.meta_.range_epoch = req.header.range_epoch
            · simp [WatchPut, WatchPutSubmit, WatchKeyValue.key0, hw, VerifyLeader, hl, hk, henc,
                hkr, hin, EpochIsEqual, hep, finishWrite]
            · simp [WatchPut, WatchPutSubmit, WatchKeyValue.key0, hw, VerifyLeader, hl, hk, henc,
                hkr, hin, EpochIsEqual, hep, finishWrite]
          | true =>
            cases hok : (env.SubmitCmd
                  { node_id := r.node_id_, cmd_type := CmdType.KvWatchPut,
                    kv := { key := [(env.EncodeKv FunctionID.kFuncWatchPut r.meta_
                              { key := req.kv.key, value := req.kv.value,
                                version := r.version_seq_ }).db_key],
                            value := (env.EncodeKv FunctionID.kFuncWatchPut r.meta_
                              { key := req.kv.key, value := req.kv.value,
                                version := r.version_seq_ }).db_value,
                            version := r.version_seq_ } }).ok with
            | false =>
              right
              simp [WatchPut, WatchPutSubmit, WatchKeyValue.key0, hw, VerifyLeader, hl, hk, henc,
                hkr, hin, hok, finishWrite]
            | true =>
              cases he : (env.EncodeKv FunctionID.kFuncWatchPut r.meta_
                  { key := req.kv.key, value := req.kv.value, version := r.version_seq_ }).err with
              | none =>
                left
                simp [WatchPut, WatchPutSubmit, WatchKeyValue.key0, hw, VerifyLeader, hl, hk,
                  henc, hkr, hin, hok, he, finishWrite]
              | some e =>
                right
                simp [WatchPut, WatchPutSubmit, WatchKeyValue.key0, hw, VerifyLeader, hl, hk,
                  henc, hkr, hin, hok, he, finishWrite]
        · right
          cases he : (env.EncodeKv FunctionID.kFuncWatchPut r.meta_
              { key := req.kv.key, value := req.kv.value, version := r.version_seq_ }).err with
          | none => simp [WatchPut, hw, VerifyLeader, hl, hk, henc, he, finishWrite]
          | some e => simp [WatchPut, hw, VerifyLeader, hl, hk, henc, he, finishWrite]

/-- A successful `WatchPut` proposes one command, carrying the old value of the
counter as version, and leaves the counter incremented. -/
theorem WatchPut_success {σ : Type} (env : Env σ) (r : Range σ) (msg : ProtoMessage)
    (req : DsKvWatchPutRequest) (hs : putSucceeds env r msg req = true) :
    submittedVersions (WatchPut env r msg req).2 = [r.version_seq_] ∧
    (WatchPut env r msg req).1.version_seq_ = wrapInt64 (r.version_seq_ + 1) := by
  rcases WatchPut_shape env r msg req with ⟨cmd, heff, hver, hcnt⟩ | hnot
  · refine ⟨?_, hcnt⟩
    rw [heff]
    simp [submittedVersions, hver]
  · exfalso
    unfold putSucceeds at hs
    split at hs
    · rename_i cmd heq
      exact hnot cmd heq
    · simp at hs

theorem chain_map_range (n : Nat) (v : Int) :
    List.Chain' (fun a b : Int => b = a + 1)
      ((List.range n).map (fun i : Nat => v + (i : Int))) := by
  induction n generalizing v with
  | zero => simp
  | succ n ih =>
    rw [List.range_succ_eq_map, List.map_cons, List.map_map, List.chain'_cons']
    have hfun : ((fun i : Nat => v + (i : Int)) ∘ Nat.succ) = fun i : Nat => (v + 1) + (i : Int) := by
      funext i
      simp only [Function.comp, Nat.succ_eq_add_one, Nat.cast_add, Nat.cast_one]
      ring
    rw [hfun]
    refine ⟨?_, ih (v + 1)⟩
    intro y hy
    cases n with
    | zero => simp at hy
    | succ m =>
      rw [List.range_succ_eq_map] at hy
      simp at hy
      rw [← hy]
      simp

theorem assignedVersions_closed {σ : Type} (steps : List (Step σ)) :
    ∀ r : Range σ, allPutsSucceed r steps = true → -2 ^ 63 ≤ r.version_seq_ →
      r.version_seq_ + (putCount steps : Int) < 2 ^ 63 →
      assignedVersions r steps =
        (List.range (putCount steps)).map (fun i : Nat => r.version_seq_ + (i : Int)) := by
  induction steps with
  | nil => intro r _ _ _; simp [assignedVersions, putCount]
  | cons st rest ih =>
    intro r hs hlo hhi
    cases st with
    | put env msg req =>
      simp only [allPutsSucceed, Bool.and_eq_true] at hs
      simp only [putCount, Nat.cast_add, Nat.cast_one] at hhi
      have hsucc := WatchPut_success env r msg req hs.1
      have hwrap : wrapInt64 (r.version_seq_ + 1) = r.version_seq_ + 1 :=
        wrapInt64_succ r.version_seq_ hlo (by omega)
      have hnext := ih (WatchPut env r msg req).1 hs.2
        (by rw [hsucc.2, hwrap]; omega) (by rw [hsucc.2, hwrap]; omega)
      simp only [assignedVersions, putCount, hsucc.1, hnext, hsucc.2, hwrap]
      rw [List.range_succ_eq_map, List.map_cons, List.map_map]
      simp only [Nat.cast_zero, add_zero, List.singleton_append, List.cons.injEq, true_and]
      apply List.map_congr_left
      intro i _
      simp only [Function.comp, Nat.succ_eq_add_one, Nat.cast_add, Nat.cast_one]
      ring
    | applyPut env cmd =>
      simp only [allPutsSucceed] at hs
      simp only [putCount] at hhi
      have hnext := ih (ApplyWatchPut env r cmd).1 hs
        (by rw [ApplyWatchPut_version_seq]; exact hlo)
        (by rw [ApplyWatchPut_version_seq]; exact hhi)
      simp only [assignedVersions, putCount, hnext, ApplyWatchPut_version_seq]
    | applyDel env cmd =>
      simp only [allPutsSucceed] at hs
      simp only [putCount] at hhi
      have hnext := ih (ApplyWatchDel env r cmd).1 hs
        (by rw [ApplyWatchDel_version_seq]; exact hlo)
        (by rw [ApplyWatchDel_version_seq]; exact hhi)
      simp only [assignedVersions, putCount, hnext, ApplyWatchDel_version_seq]

/-- C6: in a run made of N successful `WatchPut` requests, with applies of Put
and Delete commands anywhere in between, on a counter that stays below the
int64 limit, the versions `fetch_add(1)` assigns and `WatchPut` writes into the
proposed records are the counter's initial value, then that plus 1, and so on:
each is exactly 1 greater than the previous one.  `ApplyWatchPut` and
`ApplyWatchDel` never change the counter. -/
theorem C6_versions_increase_by_one {σ : Type} (r : Range σ) (steps : List (Step σ))
    (hsucc : allPutsSucceed r steps = true) (hlo : -2 ^ 63 ≤ r.version_seq_)
    (hhi : r.version_seq_ + (putCount steps : Int) < 2 ^ 63) :
    assignedVersions r steps =
      (List.range (putCount steps)).map (fun i : Nat => r.version_seq_ + (i : Int)) ∧
    List.Chain' (fun a b : Int => b = a + 1) (assignedVersions r steps) ∧
    (∀ (env : Env σ) (r0 : Range σ) (cmd : Command),
      (ApplyWatchPut env r0 cmd).1.version_seq_ = r0.version_seq_ ∧
      (ApplyWatchDel env r0 cmd).1.version_seq_ = r0.version_seq_) := by
  have hclosed := assignedVersions_closed steps r hsucc hlo hhi
  refine ⟨hclosed, ?_, ?_⟩
  · rw [hclosed]
    exact chain_map_range _ _
  · intro env r0 cmd
    exact ⟨ApplyWatchPut_version_seq env r0 cmd, ApplyWatchDel_version_seq env r0 cmd⟩

/-- C6 witness: two Puts of `foo` on `demoRange`, whose counter is 4, are assigned
versions 4 and 5. -/
theorem C6_versions_increase_by_one_witness :
    allPutsSucceed demoRange demoRun = true ∧
    assignedVersions demoRange demoRun = [4, 5] :=
  ⟨by decide,
    (C6_versions_increase_by_one demoRange demoRun (by decide) (by decide) (by decide)).1⟩

end sharkstore
